import Mathlib

/-!
Verification development for the mako-editor-tui repository: a shallow
embedding in Lean 4 of the config parser/serializer (`src/config.rs`), the
typed config model (`src/mako_config.rs`) and the modal edit loop
(`src/main.rs`), together with theorems settling the specification claims.

Strings are modelled as `List Char` (named `Str`), which mirrors Rust `String`
contents at the character level. A Rust operation that can panic is modelled
as an `Option`-returning function where `none` marks the panic.
-/

namespace MakoTui

/-- Character strings, modelled as lists of characters. -/
abbrev Str := List Char

/-- The Unicode White_Space property on a code point, as used by Rust
`char::is_whitespace` (and hence `str::trim`). -/
def wspProp (n : Nat) : Prop :=
  (9 ≤ n ∧ n ≤ 13) ∨ n = 32 ∨ n = 133 ∨ n = 160 ∨ n = 5760 ∨
  (8192 ≤ n ∧ n ≤ 8202) ∨ n = 8232 ∨ n = 8233 ∨ n = 8239 ∨ n = 8287 ∨ n = 12288

instance (n : Nat) : Decidable (wspProp n) := by
  unfold wspProp
  infer_instance

/-- Whether a character is whitespace (Rust `char::is_whitespace`). -/
def isWsp (c : Char) : Bool := decide (wspProp c.toNat)

/-- Removal of leading whitespace (Rust `str::trim_start`). -/
def trimL (s : Str) : Str := s.dropWhile isWsp

/-- Removal of trailing whitespace (Rust `str::trim_end`). -/
def trimR : Str → Str
  | [] => []
  | c :: t =>
    match trimR t with
    | [] => if isWsp c then [] else [c]
    | r => c :: r

/-- Removal of leading and trailing whitespace (Rust `str::trim`). -/
def trim (s : Str) : Str := trimR (trimL s)

/-- ASCII lowercasing of one character; faithful to Rust `to_lowercase` on
ASCII input (the claims only involve ASCII vocabularies). -/
def asciiLower (c : Char) : Char :=
  if h : 65 ≤ c.toNat ∧ c.toNat ≤ 90 then
    Char.ofNatAux (c.toNat + 32) (Or.inl (by omega))
  else c

/-- Lowercasing of a string (Rust `str::to_lowercase`, ASCII fragment). -/
def toLower (s : Str) : Str := s.map asciiLower

theorem toNat_ofNatAux (m : Nat) (h : m.isValidChar) :
    (Char.ofNatAux m h).toNat = m := rfl

theorem toNat_asciiLower_of (c : Char) (h : 65 ≤ c.toNat ∧ c.toNat ≤ 90) :
    (asciiLower c).toNat = c.toNat + 32 := by
  unfold asciiLower
  rw [dif_pos h]
  exact toNat_ofNatAux _ _

theorem asciiLower_eq_of_not (c : Char) (h : ¬ (65 ≤ c.toNat ∧ c.toNat ≤ 90)) :
    asciiLower c = c := by
  unfold asciiLower
  rw [dif_neg h]

theorem isWsp_asciiLower (c : Char) : isWsp (asciiLower c) = isWsp c := by
  by_cases h : 65 ≤ c.toNat ∧ c.toNat ≤ 90
  · have h2 := toNat_asciiLower_of c h
    simp only [isWsp]
    have hl : ¬ wspProp (asciiLower c).toNat := by rw [h2]; unfold wspProp; omega
    have hr : ¬ wspProp c.toNat := by unfold wspProp; omega
    simp [hl, hr]
  · rw [asciiLower_eq_of_not c h]

theorem asciiLower_asciiLower (c : Char) :
    asciiLower (asciiLower c) = asciiLower c := by
  by_cases h : 65 ≤ c.toNat ∧ c.toNat ≤ 90
  · have h2 := toNat_asciiLower_of c h
    have h3 : ¬ (65 ≤ (asciiLower c).toNat ∧ (asciiLower c).toNat ≤ 90) := by omega
    exact asciiLower_eq_of_not _ h3
  · rw [asciiLower_eq_of_not c h, asciiLower_eq_of_not c h]

theorem toLower_toLower (s : Str) : toLower (toLower s) = toLower s := by
  induction s with
  | nil => rfl
  | cons c t ih =>
    simp only [toLower, List.map_cons] at ih ⊢
    rw [asciiLower_asciiLower, ih]

theorem length_trimL_le (s : Str) : (trimL s).length ≤ s.length := by
  induction s with
  | nil => simp [trimL]
  | cons c t ih =>
    by_cases h : isWsp c = true
    · simp only [trimL, List.dropWhile_cons, h, if_true]
      exact le_trans ih (by simp)
    · simp [trimL, List.dropWhile_cons, h]

theorem trimL_cons_of_wsp (c : Char) (t : Str) (h : isWsp c = true) :
    trimL (c :: t) = trimL t := by
  simp [trimL, List.dropWhile_cons, h]

theorem trimL_cons_of_not (c : Char) (t : Str) (h : isWsp c = false) :
    trimL (c :: t) = c :: t := by
  simp [trimL, List.dropWhile_cons, h]

theorem head_not_wsp_of_trimL (c : Char) (t : Str)
    (h : trimL (c :: t) = c :: t) : isWsp c = false := by
  by_contra hc
  have hc' : isWsp c = true := by revert hc; cases isWsp c <;> simp
  rw [trimL_cons_of_wsp c t hc'] at h
  have hlen := length_trimL_le t
  rw [h] at hlen
  simp only [List.length_cons] at hlen
  omega

theorem trimL_trimL (s : Str) : trimL (trimL s) = trimL s := by
  induction s with
  | nil => rfl
  | cons c t ih =>
    by_cases h : isWsp c = true
    · rw [trimL_cons_of_wsp c t h, ih]
    · have h' : isWsp c = false := by revert h; cases isWsp c <;> simp
      rw [trimL_cons_of_not c t h', trimL_cons_of_not c t h']

theorem trimR_nil : trimR [] = [] := rfl

theorem trimR_cons_nil (c : Char) (t : Str) (hr : trimR t = []) :
    trimR (c :: t) = if isWsp c then [] else [c] := by
  unfold trimR
  rw [hr]

theorem trimR_cons_cons (c : Char) (t : Str) (x : Char) (r : Str)
    (hr : trimR t = x :: r) : trimR (c :: t) = c :: x :: r := by
  unfold trimR
  rw [hr]

theorem trimR_trimR (s : Str) : trimR (trimR s) = trimR s := by
  induction s with
  | nil => rfl
  | cons c t ih =>
    cases hr : trimR t with
    | nil =>
      rw [trimR_cons_nil c t hr]
      by_cases h : isWsp c = true
      · rw [if_pos h]
        exact trimR_nil
      · rw [if_neg h]
        rw [trimR_cons_nil c [] trimR_nil, if_neg h]
    | cons x r =>
      have ih2 : trimR (x :: r) = x :: r := by rw [← hr, ih, hr]
      rw [trimR_cons_cons c t x r hr]
      exact trimR_cons_cons c (x :: r) x r ih2

theorem trimL_trimR_of_trimL (s : Str) (h : trimL s = s) :
    trimL (trimR s) = trimR s := by
  cases s with
  | nil => rfl
  | cons c t =>
    have hc := head_not_wsp_of_trimL c t h
    cases hr : trimR t with
    | nil =>
      rw [trimR_cons_nil c t hr, if_neg (by simp [hc])]
      exact trimL_cons_of_not c [] hc
    | cons x r =>
      rw [trimR_cons_cons c t x r hr]
      exact trimL_cons_of_not c (x :: r) hc

theorem trim_trim (s : Str) : trim (trim s) = trim s := by
  unfold trim
  rw [trimL_trimR_of_trimL (trimL s) (trimL_trimL s), trimR_trimR]

theorem trimL_toLower (s : Str) : trimL (toLower s) = toLower (trimL s) := by
  induction s with
  | nil => rfl
  | cons c t ih =>
    by_cases h : isWsp c = true
    · have hl : isWsp (asciiLower c) = true := by rw [isWsp_asciiLower]; exact h
      simp only [toLower, List.map_cons]
      rw [trimL_cons_of_wsp _ _ hl, trimL_cons_of_wsp _ _ h]
      simpa [toLower] using ih
    · have h' : isWsp c = false := by revert h; cases isWsp c <;> simp
      have hl : isWsp (asciiLower c) = false := by rw [isWsp_asciiLower]; exact h'
      simp only [toLower, List.map_cons]
      rw [trimL_cons_of_not _ _ hl, trimL_cons_of_not _ _ h']
      simp [toLower]

theorem trimR_toLower (s : Str) : trimR (toLower s) = toLower (trimR s) := by
  induction s with
  | nil => rfl
  | cons c t ih =>
    simp only [toLower, List.map_cons]
    cases hr : trimR t with
    | nil =>
      have h1 : trimR (List.map asciiLower t) = [] := by
        have h2 := ih
        rw [hr] at h2
        simpa [toLower] using h2
      rw [trimR_cons_nil _ _ h1, trimR_cons_nil c t hr]
      by_cases h : isWsp c = true
      · rw [if_pos (by rw [isWsp_asciiLower]; exact h), if_pos h]
        rfl
      · rw [if_neg (by rw [isWsp_asciiLower]; exact h), if_neg h]
        rfl
    | cons x r =>
      have h1 : trimR (List.map asciiLower t) = asciiLower x :: List.map asciiLower r := by
        have h2 := ih
        rw [hr] at h2
        simpa [toLower] using h2
      rw [trimR_cons_cons _ _ _ _ h1, trimR_cons_cons c t x r hr]
      rfl

theorem trim_toLower (s : Str) : trim (toLower s) = toLower (trim s) := by
  unfold trim
  rw [trimL_toLower, trimR_toLower]

/-- The composite normalisation `to_lowercase ∘ trim` used by the `FromStr`
implementations is idempotent. -/
theorem lowTrim_fix (s : Str) :
    toLower (trim (toLower (trim s))) = toLower (trim s) := by
  rw [trim_toLower, trim_trim, toLower_toLower]

theorem mem_trimL (s : Str) (c : Char) (h : c ∈ trimL s) : c ∈ s := by
  induction s with
  | nil => simp [trimL] at h
  | cons x t ih =>
    by_cases hx : isWsp x = true
    · rw [trimL_cons_of_wsp x t hx] at h
      exact List.mem_cons_of_mem x (ih h)
    · have hx' : isWsp x = false := by revert hx; cases isWsp x <;> simp
      rw [trimL_cons_of_not x t hx'] at h
      exact h

theorem mem_trimR (s : Str) (c : Char) (h : c ∈ trimR s) : c ∈ s := by
  induction s with
  | nil => simp [trimR] at h
  | cons x t ih =>
    cases hr : trimR t with
    | nil =>
      rw [trimR_cons_nil x t hr] at h
      by_cases hx : isWsp x = true
      · rw [if_pos hx] at h
        simp at h
      · rw [if_neg hx] at h
        simp at h
        simp [h]
    | cons y q =>
      rw [trimR_cons_cons x t y q hr] at h
      rcases List.mem_cons.mp h with h1 | h1
      · simp [h1]
      · have h2 : c ∈ trimR t := by rw [hr]; exact h1
        exact List.mem_cons_of_mem x (ih h2)

theorem mem_trim (s : Str) (c : Char) (h : c ∈ trim s) : c ∈ s :=
  mem_trimL s c (mem_trimR (trimL s) c h)

theorem trimL_of_all_not (s : Str) (h : ∀ c ∈ s, isWsp c = false) :
    trimL s = s := by
  cases s with
  | nil => rfl
  | cons c t => exact trimL_cons_of_not c t (h c (by simp))

theorem trimR_of_all_not (s : Str) (h : ∀ c ∈ s, isWsp c = false) :
    trimR s = s := by
  induction s with
  | nil => rfl
  | cons c t ih =>
    have ht : trimR t = t := ih (fun x hx => h x (List.mem_cons_of_mem c hx))
    cases t with
    | nil => rw [trimR_cons_nil c [] trimR_nil, if_neg (by simp [h c (by simp)])]
    | cons x q => exact trimR_cons_cons c (x :: q) x q ht

theorem trim_of_all_not (s : Str) (h : ∀ c ∈ s, isWsp c = false) :
    trim s = s := by
  unfold trim
  rw [trimL_of_all_not s h, trimR_of_all_not s h]

/-- If the right part of an append is nonempty and has no trailing whitespace,
trailing-whitespace removal leaves the whole append unchanged. -/
theorem trimR_append_of (x y : Str) (hy : trimR y = y) (hne : y ≠ []) :
    trimR (x ++ y) = x ++ y := by
  induction x with
  | nil => simpa using hy
  | cons c t ih =>
    rw [List.cons_append]
    cases hxy : t ++ y with
    | nil =>
      rcases List.append_eq_nil.mp hxy with ⟨-, h2⟩
      exact absurd h2 hne
    | cons a b =>
      have ih2 : trimR (a :: b) = a :: b := by rw [← hxy, ih, hxy]
      exact trimR_cons_cons c (a :: b) a b ih2

/-! ### Decimal rendering and parsing of unsigned integers

`natToStr` models Rust `format!("{}", n)` on an unsigned integer and
`rustParseU32` models `str::parse::<u32>()` (optional leading `+`, decimal
digits only, overflow above `u32::MAX` rejected). -/

/-- Whether a character is an ASCII decimal digit. -/
def isDigitCh (c : Char) : Bool := decide (48 ≤ c.toNat ∧ c.toNat ≤ 57)

/-- The numeric value of an ASCII digit character. -/
def dval (c : Char) : Nat := c.toNat - 48

/-- The ASCII digit character for a value below ten. -/
def digitCh (n : Nat) : Char :=
  match n with
  | 0 => '0' | 1 => '1' | 2 => '2' | 3 => '3' | 4 => '4'
  | 5 => '5' | 6 => '6' | 7 => '7' | 8 => '8' | _ => '9'

/-- Decimal rendering, accumulator form. -/
def natToStrAux (n : Nat) (acc : Str) : Str :=
  if n < 10 then digitCh n :: acc
  else natToStrAux (n / 10) (digitCh (n % 10) :: acc)
termination_by n
decreasing_by exact Nat.div_lt_self (by omega) (by omega)

/-- Decimal rendering of a natural number (Rust `format!` for `u32`). -/
def natToStr (n : Nat) : Str := natToStrAux n []

/-- Value of a big-endian digit string. -/
def decVal (s : Str) : Nat := s.foldl (fun a c => a * 10 + dval c) 0

/-- Whether every character is an ASCII digit. -/
def allDigits (s : Str) : Bool := s.all isDigitCh

/-- Removal of one optional leading `+` sign, as Rust integer parsing does. -/
def dropPlus (s : Str) : Str :=
  match s with
  | c :: r => if c = '+' then r else c :: r
  | [] => []

/-- Rust `str::parse::<u32>()`: optional `+`, then a nonempty string of
decimal digits whose value fits in 32 bits. -/
def rustParseU32 (s : Str) : Option Nat :=
  if dropPlus s = [] then none
  else if allDigits (dropPlus s) then
    if decVal (dropPlus s) < 4294967296 then some (decVal (dropPlus s)) else none
  else none

theorem isDigitCh_digitCh (n : Nat) : isDigitCh (digitCh n) = true := by
  rcases n with _ | _ | _ | _ | _ | _ | _ | _ | _ | n <;> rfl

theorem dval_digitCh (n : Nat) (h : n < 10) : dval (digitCh n) = n := by
  interval_cases n <;> decide

theorem natToStrAux_append (n : Nat) : ∀ acc : Str,
    natToStrAux n acc = natToStrAux n [] ++ acc := by
  induction n using Nat.strong_induction_on with
  | _ n ih =>
    intro acc
    by_cases h : n < 10
    · rw [natToStrAux, if_pos h, natToStrAux, if_pos h]
      rfl
    · have hd : n / 10 < n := Nat.div_lt_self (by omega) (by omega)
      rw [natToStrAux, if_neg h]
      conv_rhs => rw [natToStrAux, if_neg h]
      rw [ih (n / 10) hd (digitCh (n % 10) :: acc), ih (n / 10) hd [digitCh (n % 10)]]
      simp

theorem natToStr_ne_nil (n : Nat) : natToStr n ≠ [] := by
  unfold natToStr
  by_cases h : n < 10
  · rw [natToStrAux, if_pos h]
    simp
  · rw [natToStrAux, if_neg h, natToStrAux_append]
    simp

theorem mem_natToStr_digit (n : Nat) : ∀ c ∈ natToStr n, isDigitCh c = true := by
  induction n using Nat.strong_induction_on with
  | _ n ih =>
    intro c hc
    by_cases h : n < 10
    · rw [natToStr, natToStrAux, if_pos h] at hc
      rcases List.mem_singleton.mp hc with rfl
      exact isDigitCh_digitCh n
    · rw [natToStr, natToStrAux, if_neg h, natToStrAux_append] at hc
      rcases List.mem_append.mp hc with h1 | h1
      · exact ih (n / 10) (Nat.div_lt_self (by omega) (by omega)) c h1
      · rcases List.mem_singleton.mp h1 with rfl
        exact isDigitCh_digitCh (n % 10)

theorem decVal_append_single (s : Str) (c : Char) :
    decVal (s ++ [c]) = decVal s * 10 + dval c := by
  unfold decVal
  rw [List.foldl_append]
  rfl

theorem decVal_natToStr (n : Nat) : decVal (natToStr n) = n := by
  induction n using Nat.strong_induction_on with
  | _ n ih =>
    by_cases h : n < 10
    · rw [natToStr, natToStrAux, if_pos h]
      show 0 * 10 + dval (digitCh n) = n
      rw [dval_digitCh n h]
      omega
    · rw [natToStr, natToStrAux, if_neg h, natToStrAux_append, decVal_append_single]
      rw [show natToStrAux (n / 10) [] = natToStr (n / 10) from rfl]
      rw [ih (n / 10) (Nat.div_lt_self (by omega) (by omega))]
      rw [dval_digitCh (n % 10) (Nat.mod_lt n (by omega))]
      omega

theorem isWsp_of_digit_false (c : Char) (h : isDigitCh c = true) :
    isWsp c = false := by
  have hd : 48 ≤ c.toNat ∧ c.toNat ≤ 57 := of_decide_eq_true h
  have : ¬ wspProp c.toNat := by unfold wspProp; omega
  simpa [isWsp] using this

theorem trim_natToStr (n : Nat) : trim (natToStr n) = natToStr n :=
  trim_of_all_not _ (fun c hc => isWsp_of_digit_false c (mem_natToStr_digit n c hc))

theorem dropPlus_of_digits (s : Str) (h : ∀ c ∈ s, isDigitCh c = true) :
    dropPlus s = s := by
  cases s with
  | nil => rfl
  | cons c t =>
    have hc := h c (by simp)
    have hp : c ≠ '+' := by
      intro he
      rw [he] at hc
      simp [isDigitCh] at hc
    simp [dropPlus, hp]

theorem allDigits_natToStr (n : Nat) : allDigits (natToStr n) = true := by
  unfold allDigits
  rw [List.all_eq_true]
  intro c hc
  exact mem_natToStr_digit n c hc

theorem rustParseU32_natToStr (n : Nat) (h : n < 4294967296) :
    rustParseU32 (natToStr n) = some n := by
  unfold rustParseU32
  rw [dropPlus_of_digits _ (mem_natToStr_digit n)]
  simp only [natToStr_ne_nil n, if_false, allDigits_natToStr n, if_true]
  rw [decVal_natToStr n]
  simp [h]

theorem rustParseU32_lt (s : Str) (n : Nat) (h : rustParseU32 s = some n) :
    n < 4294967296 := by
  unfold rustParseU32 at h
  split_ifs at h with h1 h2 h3
  have e := Option.some_inj.mp h
  omega

/-! ### Embedding of `src/config.rs`

`Config::load` reads the file, splits it into lines, skips blank lines,
comment lines and lines without `=`, and strips matching quotes around the
value (unescaping `\"` inside). `Config::save` serialises the parameter list
back to `key=value` lines, trimming each value.

`Config::load` contains a byte-slice `value[1..value.len() - 1]` that panics
when the trimmed value is a single quote character; the embedding returns
`none` in exactly that situation, so `none` marks the panic. -/

/-- One raw configuration entry: `struct Param` from `src/config.rs`. -/
structure Param where
  key : Str
  value : Str
deriving DecidableEq

/-- `Param::formatted_value`: the trimmed value text. -/
def formattedValue (p : Param) : Str := trim p.value

/-- Whether a value is wrapped in matching double or single quotes
(the condition guarding quote stripping in `Config::load`). -/
def quotedCond (v : Str) : Bool :=
  (v.head? = some '\"' && v.getLast? = some '\"') ||
  (v.head? = some '\'' && v.getLast? = some '\'')

/-- Rust `str::replace("\\\"", "\"")`: left-to-right, non-overlapping. -/
def unescape : Str → Str
  | '\\' :: '\"' :: rest => '\"' :: unescape rest
  | c :: rest => c :: unescape rest
  | [] => []

/-- Quote stripping in `Config::load`. For a quoted value the code takes the
byte slice `value[1..value.len() - 1]`; when the value is a single quote
character this is the invalid range `1..0` and the program panics, which the
embedding models as `none`. -/
def unquote (v : Str) : Option Str :=
  if quotedCond v then
    if 2 ≤ v.length then some (unescape (v.drop 1).dropLast) else none
  else some v

/-- Split a line at its first `=` (`line.find('=')`), returning the parts
before and after it, or `none` if the line has no `=`. -/
def splitEq : Str → Option (Str × Str)
  | [] => none
  | c :: cs =>
    if c = '=' then some ([], cs)
    else match splitEq cs with
      | some (k, v) => some (c :: k, v)
      | none => none

/-- Removal of one trailing carriage return, as Rust `str::lines` does at
each `\n` boundary. -/
def stripCR : Str → Str
  | [] => []
  | c :: t =>
    match t with
    | [] => if c = '\r' then [] else [c]
    | x :: q => c :: stripCR (x :: q)

/-- Accumulator loop for `str::lines`: split at `\n`, strip one `\r` before
each split point, and do not emit a final empty line. -/
def linesCore : Str → Str → List Str
  | acc, [] => if acc = [] then [] else [acc.reverse]
  | acc, c :: rest =>
    if c = '\n' then stripCR acc.reverse :: linesCore [] rest
    else linesCore (c :: acc) rest

/-- Rust `str::lines`. -/
def linesOf (s : Str) : List Str := linesCore [] s

/-- Processing of one raw line by `Config::load`. `some none` means the line
is skipped, `some (some p)` yields a parameter, and `none` marks the panic
inside `unquote`. -/
def parseLine (raw : Str) : Option (Option Param) :=
  let line := trim raw
  if line = [] then some none
  else if line.head? = some '#' then some none
  else match splitEq line with
    | none => some none
    | some (k, v0) =>
      match unquote (trim v0) with
      | none => none
      | some value => some (some ⟨trim k, value⟩)

/-- Folding `parseLine` over all lines, in order; a panic on any line aborts
the whole load. -/
def loadLines : List Str → Option (List Param)
  | [] => some []
  | l :: ls =>
    match parseLine l with
    | none => none
    | some none => loadLines ls
    | some (some p) => (loadLines ls).map (p :: ·)

/-- `Config::load` on given file content. -/
def loadContent (s : Str) : Option (List Param) := loadLines (linesOf s)

/-- The line `Config::save` writes for one parameter:
`format!("{}={}\n", p.key, p.formatted_value())`. -/
def saveLine (p : Param) : Str := p.key ++ '=' :: (formattedValue p ++ ['\n'])

/-- `Config::save`: the full file content, one line per parameter in order. -/
def saveContent : List Param → Str
  | [] => []
  | p :: t => saveLine p ++ saveContent t

/-- `Config::add_param`. -/
def addParam (ps : List Param) (k v : Str) : List Param := ps ++ [⟨k, v⟩]

/-- `Config::remove_param`: delete at an index, no-op when out of bounds. -/
def removeParam (ps : List Param) (idx : Nat) : List Param :=
  if idx < ps.length then ps.eraseIdx idx else ps

/-- The observable outcome of spawning the external reload command. -/
inductive LaunchOut where
  | launched (success : Bool) (stdout stderr : Str)
  | failedToLaunch (msg : Str)

/-- `Config::reload`: classify the subprocess outcome exactly as the `match`
in `src/config.rs` does. -/
def reloadClassify : LaunchOut → Except Str Str
  | .launched true o _ => .ok (trim o)
  | .launched false _ e => .error (trim e)
  | .failedToLaunch m => .error ("Failed to execute makoctl: ".data ++ m)

/-! ### Round-trip lemmas for save / load -/

/-- A key whose serialised line survives parsing unchanged: already trimmed,
no newline, no `=`, and not starting a comment. -/
def GoodKey (k : Str) : Prop :=
  trimL k = k ∧ trimR k = k ∧ '\n' ∉ k ∧ '=' ∉ k ∧ k.head? ≠ some '#'

/-- A value whose serialised form survives parsing unchanged: already
trimmed, no newline, and not wrapped in matching quotes. -/
def GoodVal (v : Str) : Prop :=
  trimL v = v ∧ trimR v = v ∧ '\n' ∉ v ∧ quotedCond v = false

/-- A parameter that round-trips through save and load. -/
def GoodParam (p : Param) : Prop := GoodKey p.key ∧ GoodVal p.value

instance (k : Str) : Decidable (GoodKey k) := by
  unfold GoodKey
  infer_instance

instance (v : Str) : Decidable (GoodVal v) := by
  unfold GoodVal
  infer_instance

instance (p : Param) : Decidable (GoodParam p) := by
  unfold GoodParam
  infer_instance

theorem trim_eq_self_of (s : Str) (h1 : trimL s = s) (h2 : trimR s = s) :
    trim s = s := by
  unfold trim
  rw [h1, h2]

theorem isWsp_eq_false : isWsp '=' = false := by decide

theorem trimR_eq_cons (v : Str) (hv : trimR v = v) :
    trimR ('=' :: v) = '=' :: v := by
  cases v with
  | nil => rw [trimR_cons_nil '=' [] trimR_nil, if_neg (by simp [isWsp_eq_false])]
  | cons x r => exact trimR_cons_cons '=' (x :: r) x r hv

theorem stripCR_single (c : Char) :
    stripCR [c] = if c = '\r' then [] else [c] := rfl

theorem stripCR_cons2 (c x : Char) (q : Str) :
    stripCR (c :: x :: q) = c :: stripCR (x :: q) := rfl

theorem stripCR_of_trimR (l : Str) (h : trimR l = l) : stripCR l = l := by
  induction l with
  | nil => rfl
  | cons c t ih =>
    cases t with
    | nil =>
      have hw : isWsp c = false := by
        by_contra hcw
        have hcw' : isWsp c = true := by revert hcw; cases isWsp c <;> simp
        rw [trimR_cons_nil c [] trimR_nil, if_pos hcw'] at h
        simp at h
      have hc : c ≠ '\r' := by
        intro he
        rw [he] at hw
        exact absurd hw (by decide)
      rw [stripCR_single, if_neg hc]
    | cons x q =>
      have ht : trimR (x :: q) = x :: q := by
        cases hr : trimR (x :: q) with
        | nil =>
          rw [trimR_cons_nil c (x :: q) hr] at h
          by_cases hw : isWsp c = true
          · rw [if_pos hw] at h
            simp at h
          · rw [if_neg hw] at h
            simp at h
        | cons y r =>
          have e1 : trimR (c :: x :: q) = c :: y :: r := trimR_cons_cons c (x :: q) y r hr
          rw [h] at e1
          have e2 : (x : Char) :: q = y :: r := by
            injection e1 with e2a e2b
          exact e2.symm
      rw [stripCR_cons2]
      exact congrArg (c :: ·) (ih ht)

theorem splitEq_append (k v : Str) (h : '=' ∉ k) :
    splitEq (k ++ '=' :: v) = some (k, v) := by
  induction k with
  | nil => simp [splitEq]
  | cons c t ih =>
    have hc : c ≠ '=' := by
      intro he
      exact h (by simp [he])
    have ht : '=' ∉ t := fun hm => h (List.mem_cons_of_mem c hm)
    rw [List.cons_append]
    unfold splitEq
    rw [if_neg hc, ih ht]

theorem unquote_of_not_quoted (v : Str) (h : quotedCond v = false) :
    unquote v = some v := by
  unfold unquote
  rw [h]
  simp

/-- The body of the saved line for a good parameter parses back to exactly
that parameter. -/
theorem parseLine_saveBody (p : Param) (hp : GoodParam p) :
    parseLine (p.key ++ '=' :: p.value) = some (some p) := by
  obtain ⟨⟨hkL, hkR, hkNl, hkEq, hkHash⟩, hvL, hvR, hvNl, hvQ⟩ := hp
  have hv : trim p.value = p.value := trim_eq_self_of _ hvL hvR
  have hbodyR : trimR (p.key ++ '=' :: p.value) = p.key ++ '=' :: p.value :=
    trimR_append_of _ _ (trimR_eq_cons _ hvR) (by simp)
  have hbodyL : trimL (p.key ++ '=' :: p.value) = p.key ++ '=' :: p.value := by
    cases hk : p.key with
    | nil =>
      simp only [List.nil_append]
      exact trimL_cons_of_not '=' p.value isWsp_eq_false
    | cons c t =>
      have hc : isWsp c = false := head_not_wsp_of_trimL c t (hk ▸ hkL)
      rw [List.cons_append]
      exact trimL_cons_of_not c (t ++ '=' :: p.value) hc
  have hbody : trim (p.key ++ '=' :: p.value) = p.key ++ '=' :: p.value :=
    trim_eq_self_of _ hbodyL hbodyR
  have hne : p.key ++ '=' :: p.value ≠ [] := by simp
  have hhash : (p.key ++ '=' :: p.value).head? ≠ some '#' := by
    cases hk : p.key with
    | nil => simp
    | cons c t =>
      rw [hk] at hkHash
      simpa using hkHash
  unfold parseLine
  simp only [hbody, if_neg hne, if_neg hhash]
  rw [splitEq_append p.key p.value hkEq]
  simp only [hv, unquote_of_not_quoted p.value hvQ]
  have hk : trim p.key = p.key := trim_eq_self_of _ hkL hkR
  rw [hk]

theorem linesCore_cons (acc : Str) (c : Char) (rest : Str) :
    linesCore acc (c :: rest) =
      if c = '\n' then stripCR acc.reverse :: linesCore [] rest
      else linesCore (c :: acc) rest := rfl

theorem linesCore_split (l : Str) : ∀ acc s, '\n' ∉ l →
    linesCore acc (l ++ '\n' :: s) =
      stripCR (acc.reverse ++ l) :: linesCore [] s := by
  induction l with
  | nil =>
    intro acc s _
    rw [List.nil_append, linesCore_cons, if_pos rfl]
    simp
  | cons c t ih =>
    intro acc s h
    have hc : c ≠ '\n' := by
      intro he
      exact h (by simp [he])
    have ht : '\n' ∉ t := fun hm => h (List.mem_cons_of_mem c hm)
    rw [List.cons_append, linesCore_cons, if_neg hc, ih (c :: acc) s ht]
    simp

/-- Splitting the saved content of a good parameter list recovers one line
body per parameter. -/
theorem linesOf_saveContent (ps : List Param) (hps : ∀ p ∈ ps, GoodParam p) :
    linesOf (saveContent ps) = ps.map (fun p => p.key ++ '=' :: p.value) := by
  induction ps with
  | nil => rfl
  | cons p t ih =>
    obtain ⟨⟨hkL, hkR, hkNl, hkEq, hkHash⟩, hvL, hvR, hvNl, hvQ⟩ := hps p (by simp)
    have hv : trim p.value = p.value := trim_eq_self_of _ hvL hvR
    have hbodyNl : '\n' ∉ p.key ++ '=' :: p.value := by
      intro hm
      rcases List.mem_append.mp hm with h1 | h1
      · exact hkNl h1
      · rcases List.mem_cons.mp h1 with h2 | h2
        · cases h2
        · exact hvNl h2
    have hbodyR : trimR (p.key ++ '=' :: p.value) = p.key ++ '=' :: p.value :=
      trimR_append_of _ _ (trimR_eq_cons _ hvR) (by simp)
    have harrange : saveContent (p :: t) =
        (p.key ++ '=' :: p.value) ++ '\n' :: saveContent t := by
      show saveLine p ++ saveContent t = _
      unfold saveLine formattedValue
      rw [hv]
      simp
    rw [harrange]
    unfold linesOf
    rw [linesCore_split _ [] _ hbodyNl]
    rw [List.reverse_nil, List.nil_append, stripCR_of_trimR _ hbodyR]
    rw [show linesCore [] (saveContent t) = linesOf (saveContent t) from rfl]
    rw [ih (fun q hq => hps q (List.mem_cons_of_mem p hq))]
    rfl

theorem loadLines_cons_param (l : Str) (ls : List Str) (p : Param)
    (h : parseLine l = some (some p)) :
    loadLines (l :: ls) = (loadLines ls).map (p :: ·) := by
  have e : loadLines (l :: ls) = match parseLine l with
    | none => none
    | some none => loadLines ls
    | some (some p) => (loadLines ls).map (p :: ·) := rfl
  rw [e, h]

/-! ### Claims C1, C2, C4 and C8 -/

/-- C1 (counterexample): the round trip fails as stated. Each of these four
parameters serialises to a line with no `#` at the line start and no `=`
inside the key, yet save-then-load does not return the original list: a value
wrapped in quotes loses its quotes, untrimmed values and keys are trimmed,
and a value containing a newline is split across lines. -/
theorem claim1_roundtrip_counterexample :
    loadContent (saveContent [⟨"k".data, "\"x\"".data⟩]) ≠
      some [⟨"k".data, "\"x\"".data⟩] ∧
    loadContent (saveContent [⟨"k".data, " x".data⟩]) ≠
      some [⟨"k".data, " x".data⟩] ∧
    loadContent (saveContent [⟨" k".data, "v".data⟩]) ≠
      some [⟨" k".data, "v".data⟩] ∧
    loadContent (saveContent [⟨"k".data, "a\nb".data⟩]) ≠
      some [⟨"k".data, "a\nb".data⟩] :=
  ⟨by decide, by decide, by decide, by decide⟩

/-- C1 (amended): for every parameter list whose entries are well formed in
the sense of `GoodParam` — key and value already trimmed and newline-free, no
`=` inside the key, no `#` starting the line, and the value not wrapped in
matching quotes — serialising with save and parsing with load yields the
original ordered list of parameters. -/
theorem claim1_roundtrip_amended (ps : List Param)
    (hps : ∀ p ∈ ps, GoodParam p) :
    loadContent (saveContent ps) = some ps := by
  unfold loadContent
  rw [linesOf_saveContent ps hps]
  induction ps with
  | nil => rfl
  | cons p t ih =>
    rw [List.map_cons,
        loadLines_cons_param _ _ p (parseLine_saveBody p (hps p (by simp))),
        ih (fun q hq => hps q (List.mem_cons_of_mem p hq))]
    rfl

/-- C1 (witness): a concrete two-entry list satisfying the hypothesis of the
amended round-trip theorem, together with its conclusion. -/
theorem claim1_roundtrip_witness :
    (∀ p ∈ [(⟨"font".data, "monospace 10".data⟩ : Param),
            ⟨"width".data, "120".data⟩], GoodParam p) ∧
    loadContent (saveContent [(⟨"font".data, "monospace 10".data⟩ : Param),
            ⟨"width".data, "120".data⟩]) =
      some [(⟨"font".data, "monospace 10".data⟩ : Param),
            ⟨"width".data, "120".data⟩] :=
  ⟨by decide, claim1_roundtrip_amended _ (by decide)⟩

/-- C2: the claim that no file content makes load panic is contradicted by
the code. On the file content `k="` the trimmed value is the single character
`"`, which starts and ends with a double quote, so `Config::load` evaluates
the byte slice `value[1..value.len() - 1]` with the invalid range `1..0` and
panics; the embedding returns `none` (the panic marker) on exactly this
input. -/
theorem claim2_load_panics_on_lone_quote :
    loadContent ("k=\"".data) = none := by decide

/-- C4: loading the line `key="a\"b"` yields the value `a"b`; loading
`key='x'` yields the value `x`; and the line emitted by save consists of the
key, `=`, the trimmed value and a newline, so it never adds quote characters:
if neither the key nor the trimmed value contains a quote character, the
emitted line contains none. -/
theorem claim4_quote_handling :
    loadContent ("key=\"a\\\"b\"".data) = some [⟨"key".data, "a\"b".data⟩] ∧
    loadContent ("key=".data ++ ['\'', 'x', '\'']) =
      some [⟨"key".data, "x".data⟩] ∧
    ∀ p : Param,
      ('\"' ∉ p.key → '\"' ∉ trim p.value → '\"' ∉ saveContent [p]) ∧
      ('\'' ∉ p.key → '\'' ∉ trim p.value → '\'' ∉ saveContent [p]) := by
  refine ⟨by decide, by decide, fun p => ⟨?_, ?_⟩⟩
  · intro hk hv hm
    simp only [saveContent, saveLine, formattedValue, List.append_nil,
      List.mem_append, List.mem_cons, List.mem_singleton,
      List.not_mem_nil, or_false] at hm
    rcases hm with h | h | h | h
    · exact hk h
    · exact absurd h (by decide)
    · exact hv h
    · exact absurd h (by decide)
  · intro hk hv hm
    simp only [saveContent, saveLine, formattedValue, List.append_nil,
      List.mem_append, List.mem_cons, List.mem_singleton,
      List.not_mem_nil, or_false] at hm
    rcases hm with h | h | h | h
    · exact hk h
    · exact absurd h (by decide)
    · exact hv h
    · exact absurd h (by decide)

/-- C4 (witness): the quote-free parameter `k=v` instantiates the universally
quantified part of the quoting theorem. -/
theorem claim4_quote_handling_witness :
    '\"' ∉ saveContent [(⟨"k".data, "v".data⟩ : Param)] ∧
    '\'' ∉ saveContent [(⟨"k".data, "v".data⟩ : Param)] :=
  ⟨(claim4_quote_handling.2.2 ⟨"k".data, "v".data⟩).1 (by decide) (by decide),
   (claim4_quote_handling.2.2 ⟨"k".data, "v".data⟩).2 (by decide) (by decide)⟩

/-- C8: the reload bridge classifies the outcome of the external command as
the spec states. Exit status zero yields success carrying the trimmed
standard output; a non-zero exit yields failure carrying the trimmed
standard error; failure to launch yields failure whose message is the fixed
descriptive text `Failed to execute makoctl: ` followed by the launch error —
a message that always begins with that 27-character tag, distinguishing it
from the non-zero-exit case. -/
theorem claim8_reload_outcomes (o e m : Str) :
    reloadClassify (.launched true o e) = .ok (trim o) ∧
    reloadClassify (.launched false o e) = .error (trim e) ∧
    reloadClassify (.failedToLaunch m) =
      .error ("Failed to execute makoctl: ".data ++ m) ∧
    ("Failed to execute makoctl: ".data ++ m).take 27 =
      "Failed to execute makoctl: ".data := by
  refine ⟨rfl, rfl, rfl, ?_⟩
  have h : ("Failed to execute makoctl: ".data).length = 27 := by decide
  rw [← h]
  exact List.take_left _ _

/-! ### Embedding of `src/mako_config.rs` -/

/-- Window layer (`enum Layer`). -/
inductive Layer where
  | Overlay | Bottom | Top | Normal
deriving DecidableEq

/-- Layout hint (`enum LayoutKind`); open enumeration. -/
inductive LayoutKind where
  | Normal | Overlay | Center
  | Other (s : Str)
deriving DecidableEq

/-- Icon position (`enum IconLocation`); open enumeration. -/
inductive IconLocation where
  | Left | Right | Top | Bottom
  | TopLeft | TopRight | BottomLeft | BottomRight | Center
  | Other (s : Str)
deriving DecidableEq

/-- Text alignment (`enum TextAlign`); closed enumeration. -/
inductive TextAlign where
  | Left | Center | Right
deriving DecidableEq

/-- `Layer::from_str`: case-insensitive match on a trimmed value; a closed
enumeration, unknown values are errors (`none`). -/
def layerFromStr (s : Str) : Option Layer :=
  if toLower (trim s) = "overlay".data then some .Overlay
  else if toLower (trim s) = "bottom".data then some .Bottom
  else if toLower (trim s) = "top".data then some .Top
  else if toLower (trim s) = "normal".data then some .Normal
  else none

/-- `LayoutKind::from_str`: the `Err` case is unreachable in the source (the
final match arm wraps any other lowercased string in `Other`), so the
embedding is total. -/
def layoutFromStr (s : Str) : LayoutKind :=
  if toLower (trim s) = "normal".data then .Normal
  else if toLower (trim s) = "overlay".data then .Overlay
  else if toLower (trim s) = "center".data then .Center
  else .Other (toLower (trim s))

/-- `IconLocation::from_str`; total for the same reason. Note the source has
no match arm for `bottom-left`/`bottomleft`, so those strings fall through to
`Other`. -/
def iconLocFromStr (s : Str) : IconLocation :=
  if toLower (trim s) = "left".data then .Left
  else if toLower (trim s) = "right".data then .Right
  else if toLower (trim s) = "top".data then .Top
  else if toLower (trim s) = "bottom".data then .Bottom
  else if toLower (trim s) = "top-left".data ∨ toLower (trim s) = "topleft".data then .TopLeft
  else if toLower (trim s) = "top-right".data ∨ toLower (trim s) = "topright".data then .TopRight
  else if toLower (trim s) = "bottom-right".data ∨ toLower (trim s) = "bottomright".data then .BottomRight
  else if toLower (trim s) = "center".data then .Center
  else .Other (toLower (trim s))

/-- `TextAlign::from_str`: closed enumeration. -/
def textAlignFromStr (s : Str) : Option TextAlign :=
  if toLower (trim s) = "left".data then some .Left
  else if toLower (trim s) = "center".data then some .Center
  else if toLower (trim s) = "right".data then some .Right
  else none

/-- The `Debug` rendering of `Layer` (the canonical save-time string). -/
def layerDebug : Layer → Str
  | .Overlay => "overlay".data
  | .Bottom => "bottom".data
  | .Top => "top".data
  | .Normal => "normal".data

/-- The `Debug` rendering of `LayoutKind`. -/
def layoutDebug : LayoutKind → Str
  | .Normal => "normal".data
  | .Overlay => "overlay".data
  | .Center => "center".data
  | .Other s => s

/-- The `Debug` rendering of `IconLocation`. -/
def iconLocDebug : IconLocation → Str
  | .Left => "left".data
  | .Right => "right".data
  | .Top => "top".data
  | .Bottom => "bottom".data
  | .TopLeft => "top-left".data
  | .TopRight => "top-right".data
  | .BottomLeft => "bottom-left".data
  | .BottomRight => "bottom-right".data
  | .Center => "center".data
  | .Other s => s

/-- The `Debug` rendering of `TextAlign`. -/
def textAlignDebug : TextAlign → Str
  | .Left => "left".data
  | .Center => "center".data
  | .Right => "right".data

/-- `strip_suffix("px")` composed with `unwrap_or`: remove a trailing `px`
when present. -/
def stripPx (s : Str) : Str :=
  match s.reverse with
  | 'x' :: 'p' :: r => r.reverse
  | _ => s

/-- `parse_px`: trim, strip an optional `px` suffix, parse as `u32`. -/
def parsePx (s : Str) : Option Nat := rustParseU32 (stripPx (trim s))

/-- `parse_u32`: trim and parse as `u32`. -/
def parseU32 (s : Str) : Option Nat := rustParseU32 (trim s)

/-- `parse_bool`: fixed truthy/falsy vocabulary, case-insensitive. -/
def parseBool (s : Str) : Option Bool :=
  if toLower (trim s) = "1".data ∨ toLower (trim s) = "true".data ∨
     toLower (trim s) = "yes".data ∨ toLower (trim s) = "on".data then
    some true
  else if toLower (trim s) = "0".data ∨ toLower (trim s) = "false".data ∨
     toLower (trim s) = "no".data ∨ toLower (trim s) = "off".data then
    some false
  else none

/-- `bool_to_str`. -/
def boolToStr (b : Bool) : Str := if b then "1".data else "0".data

/-- `struct MakoConfig`: one optional typed field per recognised key. -/
structure MakoConfig where
  sort : Option Str
  layer : Option Layer
  backgroundColor : Option Str
  width : Option Nat
  height : Option Nat
  borderSize : Option Nat
  borderColor : Option Str
  borderRadius : Option Nat
  icons : Option Bool
  maxIconSize : Option Nat
  defaultTimeout : Option Nat
  ignoreTimeout : Option Bool
  font : Option Str
  outerMargin : Option Nat
  padding : Option Nat
  markup : Option Bool
  progressColor : Option Str
  progressBackgroundColor : Option Str
  iconPath : Option Str
  iconLocation : Option IconLocation
  iconBorderRadius : Option Nat
  groupBy : Option Str
  layout : Option LayoutKind
  textAlign : Option TextAlign
deriving DecidableEq

/-- `MakoConfig::new` / `Default`: the empty config. -/
def mkEmpty : MakoConfig :=
  ⟨none, none, none, none, none, none, none, none, none, none, none, none,
   none, none, none, none, none, none, none, none, none, none, none, none⟩

/-- The recognised keys, used to factor the key dispatch of `set_from_kv`. -/
inductive KKey where
  | sort | layer | backgroundColor | width | height | borderSize
  | borderColor | borderRadius | icons | maxIconSize | defaultTimeout
  | ignoreTimeout | font | outerMargin | padding | markup | progressColor
  | progressBackgroundColor | iconPath | iconLocation | iconBorderRadius
  | groupBy | layout | textAlign
deriving DecidableEq

/-- Key dispatch of `set_from_kv`: match `key.trim()` against the recognised
key names; unknown keys yield `none`. -/
def keyOf (k : Str) : Option KKey :=
  if trim k = "sort".data then some .sort
  else if trim k = "layer".data then some .layer
  else if trim k = "background-color".data then some .backgroundColor
  else if trim k = "width".data then some .width
  else if trim k = "height".data then some .height
  else if trim k = "border-size".data then some .borderSize
  else if trim k = "border-color".data then some .borderColor
  else if trim k = "border-radius".data then some .borderRadius
  else if trim k = "icons".data then some .icons
  else if trim k = "max-icon-size".data then some .maxIconSize
  else if trim k = "default-timeout".data then some .defaultTimeout
  else if trim k = "ignore-timeout".data then some .ignoreTimeout
  else if trim k = "font".data then some .font
  else if trim k = "outer-margin".data then some .outerMargin
  else if trim k = "padding".data then some .padding
  else if trim k = "markup".data then some .markup
  else if trim k = "progress-color".data then some .progressColor
  else if trim k = "progress-background-color".data then some .progressBackgroundColor
  else if trim k = "icon-path".data then some .iconPath
  else if trim k = "icon-location".data then some .iconLocation
  else if trim k = "icon-border-radius".data then some .iconBorderRadius
  else if trim k = "group-by".data then some .groupBy
  else if trim k = "layout".data then some .layout
  else if trim k = "text-align".data then some .textAlign
  else none

/-- `MakoConfig::set_from_kv`. Free-text fields store the trimmed value;
numeric and boolean fields store the parse result directly (so a failed parse
assigns `none`); `layer` and `text-align` leave the field untouched when
parsing fails; `layout` and `icon-location` always store (their parsers are
total). Unknown keys are ignored. -/
def setFromKv (c : MakoConfig) (k v : Str) : MakoConfig :=
  match keyOf k with
  | some .sort => { c with sort := some (trim v) }
  | some .layer =>
    match layerFromStr v with
    | some l => { c with layer := some l }
    | none => c
  | some .backgroundColor => { c with backgroundColor := some (trim v) }
  | some .width => { c with width := parsePx v }
  | some .height => { c with height := parsePx v }
  | some .borderSize => { c with borderSize := parsePx v }
  | some .borderColor => { c with borderColor := some (trim v) }
  | some .borderRadius => { c with borderRadius := parsePx v }
  | some .icons => { c with icons := parseBool v }
  | some .maxIconSize => { c with maxIconSize := parsePx v }
  | some .defaultTimeout => { c with defaultTimeout := parseU32 v }
  | some .ignoreTimeout => { c with ignoreTimeout := parseBool v }
  | some .font => { c with font := some (trim v) }
  | some .outerMargin => { c with outerMargin := parsePx v }
  | some .padding => { c with padding := parsePx v }
  | some .markup => { c with markup := parseBool v }
  | some .progressColor => { c with progressColor := some (trim v) }
  | some .progressBackgroundColor => { c with progressBackgroundColor := some (trim v) }
  | some .iconPath => { c with iconPath := some (trim v) }
  | some .iconLocation => { c with iconLocation := some (iconLocFromStr v) }
  | some .iconBorderRadius => { c with iconBorderRadius := parsePx v }
  | some .groupBy => { c with groupBy := some (trim v) }
  | some .layout => { c with layout := some (layoutFromStr v) }
  | some .textAlign =>
    match textAlignFromStr v with
    | some a => { c with textAlign := some a }
    | none => c
  | none => c

/-- One emitted pair for a populated optional field. -/
def opt1 {α : Type} (o : Option α) (f : α → Str × Str) : List (Str × Str) :=
  match o with
  | none => []
  | some x => [f x]

/-- `MakoConfig::to_kv_pairs`: one pair per populated field, in the fixed
source order; enum values are rendered via their `Debug` string lowered by
`to_lowercase`, numbers via `format!`, booleans via `bool_to_str`. -/
def toKvPairs (c : MakoConfig) : List (Str × Str) :=
  opt1 c.sort (fun v => ("sort".data, v)) ++
  opt1 c.layer (fun v => ("layer".data, toLower (layerDebug v))) ++
  opt1 c.backgroundColor (fun v => ("background-color".data, v)) ++
  opt1 c.width (fun v => ("width".data, natToStr v)) ++
  opt1 c.height (fun v => ("height".data, natToStr v)) ++
  opt1 c.borderSize (fun v => ("border-size".data, natToStr v)) ++
  opt1 c.borderColor (fun v => ("border-color".data, v)) ++
  opt1 c.borderRadius (fun v => ("border-radius".data, natToStr v)) ++
  opt1 c.icons (fun v => ("icons".data, boolToStr v)) ++
  opt1 c.maxIconSize (fun v => ("max-icon-size".data, natToStr v)) ++
  opt1 c.defaultTimeout (fun v => ("default-timeout".data, natToStr v)) ++
  opt1 c.ignoreTimeout (fun v => ("ignore-timeout".data, boolToStr v)) ++
  opt1 c.font (fun v => ("font".data, v)) ++
  opt1 c.outerMargin (fun v => ("outer-margin".data, natToStr v)) ++
  opt1 c.padding (fun v => ("padding".data, natToStr v)) ++
  opt1 c.markup (fun v => ("markup".data, boolToStr v)) ++
  opt1 c.progressColor (fun v => ("progress-color".data, v)) ++
  opt1 c.progressBackgroundColor (fun v => ("progress-background-color".data, v)) ++
  opt1 c.iconPath (fun v => ("icon-path".data, v)) ++
  opt1 c.iconLocation (fun v => ("icon-location".data, toLower (iconLocDebug v))) ++
  opt1 c.iconBorderRadius (fun v => ("icon-border-radius".data, natToStr v)) ++
  opt1 c.groupBy (fun v => ("group-by".data, v)) ++
  opt1 c.layout (fun v => ("layout".data, toLower (layoutDebug v))) ++
  opt1 c.textAlign (fun v => ("text-align".data, toLower (textAlignDebug v)))

/-- Folding a pair list back through `set_from_kv`, starting from a config. -/
def applyKvs (c : MakoConfig) (kvs : List (Str × Str)) : MakoConfig :=
  kvs.foldl (fun a p => setFromKv a p.1 p.2) c

/-! ### Vocabulary and round-trip lemmas for the typed config -/

theorem layoutFromStr_eq_other (s : Str)
    (h1 : toLower (trim s) ≠ "normal".data)
    (h2 : toLower (trim s) ≠ "overlay".data)
    (h3 : toLower (trim s) ≠ "center".data) :
    layoutFromStr s = .Other (toLower (trim s)) := by
  unfold layoutFromStr
  rw [if_neg h1, if_neg h2, if_neg h3]

theorem iconLocFromStr_eq_other (s : Str)
    (h1 : toLower (trim s) ≠ "left".data)
    (h2 : toLower (trim s) ≠ "right".data)
    (h3 : toLower (trim s) ≠ "top".data)
    (h4 : toLower (trim s) ≠ "bottom".data)
    (h5 : toLower (trim s) ≠ "top-left".data)
    (h6 : toLower (trim s) ≠ "topleft".data)
    (h7 : toLower (trim s) ≠ "top-right".data)
    (h8 : toLower (trim s) ≠ "topright".data)
    (h9 : toLower (trim s) ≠ "bottom-right".data)
    (h10 : toLower (trim s) ≠ "bottomright".data)
    (h11 : toLower (trim s) ≠ "center".data) :
    iconLocFromStr s = .Other (toLower (trim s)) := by
  unfold iconLocFromStr
  rw [if_neg h1, if_neg h2, if_neg h3, if_neg h4,
      if_neg (not_or.mpr ⟨h5, h6⟩), if_neg (not_or.mpr ⟨h7, h8⟩),
      if_neg (not_or.mpr ⟨h9, h10⟩), if_neg h11]

theorem layerFromStr_eq_none (s : Str)
    (h1 : toLower (trim s) ≠ "overlay".data)
    (h2 : toLower (trim s) ≠ "bottom".data)
    (h3 : toLower (trim s) ≠ "top".data)
    (h4 : toLower (trim s) ≠ "normal".data) :
    layerFromStr s = none := by
  unfold layerFromStr
  rw [if_neg h1, if_neg h2, if_neg h3, if_neg h4]

theorem textAlignFromStr_eq_none (s : Str)
    (h1 : toLower (trim s) ≠ "left".data)
    (h2 : toLower (trim s) ≠ "center".data)
    (h3 : toLower (trim s) ≠ "right".data) :
    textAlignFromStr s = none := by
  unfold textAlignFromStr
  rw [if_neg h1, if_neg h2, if_neg h3]

/-- The possible results of `LayoutKind::from_str`: a canonical constructor,
or `Other` holding the lowercased trimmed input outside the vocabulary. -/
theorem layoutFromStr_cases (v : Str) :
    layoutFromStr v = .Normal ∨ layoutFromStr v = .Overlay ∨
    layoutFromStr v = .Center ∨
    (layoutFromStr v = .Other (toLower (trim v)) ∧
      toLower (trim v) ≠ "normal".data ∧
      toLower (trim v) ≠ "overlay".data ∧
      toLower (trim v) ≠ "center".data) := by
  by_cases h1 : toLower (trim v) = "normal".data
  · exact Or.inl (by unfold layoutFromStr; rw [if_pos h1])
  by_cases h2 : toLower (trim v) = "overlay".data
  · exact Or.inr (Or.inl (by unfold layoutFromStr; rw [if_neg h1, if_pos h2]))
  by_cases h3 : toLower (trim v) = "center".data
  · exact Or.inr (Or.inr (Or.inl (by
      unfold layoutFromStr; rw [if_neg h1, if_neg h2, if_pos h3])))
  exact Or.inr (Or.inr (Or.inr ⟨layoutFromStr_eq_other v h1 h2 h3, h1, h2, h3⟩))

/-- Emit-then-reparse is the identity on the image of `LayoutKind::from_str`. -/
theorem layoutFromStr_round (v : Str) :
    layoutFromStr (toLower (layoutDebug (layoutFromStr v))) = layoutFromStr v := by
  rcases layoutFromStr_cases v with h | h | h | ⟨h, h1, h2, h3⟩ <;> rw [h]
  · decide
  · decide
  · decide
  · have hfix : toLower (toLower (trim v)) = toLower (trim v) := toLower_toLower _
    show layoutFromStr (toLower (toLower (trim v))) = _
    rw [hfix]
    have e1 : toLower (trim (toLower (trim v))) = toLower (trim v) := lowTrim_fix v
    conv_rhs => rw [← e1]
    apply layoutFromStr_eq_other <;> (rw [e1]; assumption)

/-- The possible results of `IconLocation::from_str`. `BottomLeft` is absent:
the source has no `bottom-left` match arm, so that string lands in `Other`. -/
theorem iconLocFromStr_cases (v : Str) :
    iconLocFromStr v = .Left ∨ iconLocFromStr v = .Right ∨
    iconLocFromStr v = .Top ∨ iconLocFromStr v = .Bottom ∨
    iconLocFromStr v = .TopLeft ∨ iconLocFromStr v = .TopRight ∨
    iconLocFromStr v = .BottomRight ∨ iconLocFromStr v = .Center ∨
    (iconLocFromStr v = .Other (toLower (trim v)) ∧
      toLower (trim v) ≠ "left".data ∧
      toLower (trim v) ≠ "right".data ∧
      toLower (trim v) ≠ "top".data ∧
      toLower (trim v) ≠ "bottom".data ∧
      toLower (trim v) ≠ "top-left".data ∧
      toLower (trim v) ≠ "topleft".data ∧
      toLower (trim v) ≠ "top-right".data ∧
      toLower (trim v) ≠ "topright".data ∧
      toLower (trim v) ≠ "bottom-right".data ∧
      toLower (trim v) ≠ "bottomright".data ∧
      toLower (trim v) ≠ "center".data) := by
  unfold iconLocFromStr
  split_ifs with h1 h2 h3 h4 h5 h6 h7 h8
  · exact Or.inl rfl
  · exact Or.inr (Or.inl rfl)
  · exact Or.inr (Or.inr (Or.inl rfl))
  · exact Or.inr (Or.inr (Or.inr (Or.inl rfl)))
  · exact Or.inr (Or.inr (Or.inr (Or.inr (Or.inl rfl))))
  · exact Or.inr (Or.inr (Or.inr (Or.inr (Or.inr (Or.inl rfl)))))
  · exact Or.inr (Or.inr (Or.inr (Or.inr (Or.inr (Or.inr (Or.inl rfl))))))
  · exact Or.inr (Or.inr (Or.inr (Or.inr (Or.inr (Or.inr (Or.inr (Or.inl rfl)))))))
  · rcases not_or.mp h5 with ⟨h5a, h5b⟩
    rcases not_or.mp h6 with ⟨h6a, h6b⟩
    rcases not_or.mp h7 with ⟨h7a, h7b⟩
    exact Or.inr (Or.inr (Or.inr (Or.inr (Or.inr (Or.inr (Or.inr (Or.inr
      ⟨rfl, h1, h2, h3, h4, h5a, h5b, h6a, h6b, h7a, h7b, h8⟩)))))))

/-- Emit-then-reparse is the identity on the image of
`IconLocation::from_str`. -/
theorem iconLocFromStr_round (v : Str) :
    iconLocFromStr (toLower (iconLocDebug (iconLocFromStr v))) = iconLocFromStr v := by
  rcases iconLocFromStr_cases v with
    h | h | h | h | h | h | h | h | ⟨h, h1, h2, h3, h4, h5, h6, h7, h8, h9, h10, h11⟩ <;> rw [h]
  · decide
  · decide
  · decide
  · decide
  · decide
  · decide
  · decide
  · decide
  · have hfix : toLower (toLower (trim v)) = toLower (trim v) := toLower_toLower _
    show iconLocFromStr (toLower (toLower (trim v))) = _
    rw [hfix]
    have e1 : toLower (trim (toLower (trim v))) = toLower (trim v) := lowTrim_fix v
    conv_rhs => rw [← e1]
    apply iconLocFromStr_eq_other <;> (rw [e1]; assumption)

theorem layerFromStr_round (l : Layer) :
    layerFromStr (toLower (layerDebug l)) = some l := by
  cases l <;> decide

theorem textAlignFromStr_round (a : TextAlign) :
    textAlignFromStr (toLower (textAlignDebug a)) = some a := by
  cases a <;> decide

theorem parseBool_boolToStr (b : Bool) : parseBool (boolToStr b) = some b := by
  cases b <;> decide

theorem stripPx_of_digits (s : Str) (h : ∀ c ∈ s, isDigitCh c = true) :
    stripPx s = s := by
  unfold stripPx
  split
  · rename_i r heq
    have hx : ('x' : Char) ∈ s := by
      have hm : ('x' : Char) ∈ s.reverse := by rw [heq]; simp
      exact List.mem_reverse.mp hm
    have hd := h 'x' hx
    simp [isDigitCh] at hd
  · rfl

theorem parsePx_natToStr (v : Str) (n : Nat) (h : parsePx v = some n) :
    parsePx (natToStr n) = some n := by
  have hb : n < 4294967296 := rustParseU32_lt _ _ h
  unfold parsePx
  rw [trim_natToStr, stripPx_of_digits _ (mem_natToStr_digit n),
      rustParseU32_natToStr n hb]

theorem parseU32_natToStr (v : Str) (n : Nat) (h : parseU32 v = some n) :
    parseU32 (natToStr n) = some n := by
  have hb : n < 4294967296 := rustParseU32_lt _ _ h
  unfold parseU32
  rw [trim_natToStr, rustParseU32_natToStr n hb]

/-! ### Claims C3, C5 and C6

The helper lemmas below evaluate the key dispatch and the emitted pair for
each recognised key once, so the per-key cases of the round-trip proof can
proceed by rewriting. -/

theorem keyOfEval_sort : keyOf ("sort".data) = some .sort := by decide

theorem keyOfEval_layer : keyOf ("layer".data) = some .layer := by decide

theorem keyOfEval_backgroundColor : keyOf ("background-color".data) = some .backgroundColor := by decide

theorem keyOfEval_width : keyOf ("width".data) = some .width := by decide

theorem keyOfEval_height : keyOf ("height".data) = some .height := by decide

theorem keyOfEval_borderSize : keyOf ("border-size".data) = some .borderSize := by decide

theorem keyOfEval_borderColor : keyOf ("border-color".data) = some .borderColor := by decide

theorem keyOfEval_borderRadius : keyOf ("border-radius".data) = some .borderRadius := by decide

theorem keyOfEval_icons : keyOf ("icons".data) = some .icons := by decide

theorem keyOfEval_maxIconSize : keyOf ("max-icon-size".data) = some .maxIconSize := by decide

theorem keyOfEval_defaultTimeout : keyOf ("default-timeout".data) = some .defaultTimeout := by decide

theorem keyOfEval_ignoreTimeout : keyOf ("ignore-timeout".data) = some .ignoreTimeout := by decide

theorem keyOfEval_font : keyOf ("font".data) = some .font := by decide

theorem keyOfEval_outerMargin : keyOf ("outer-margin".data) = some .outerMargin := by decide

theorem keyOfEval_padding : keyOf ("padding".data) = some .padding := by decide

theorem keyOfEval_markup : keyOf ("markup".data) = some .markup := by decide

theorem keyOfEval_progressColor : keyOf ("progress-color".data) = some .progressColor := by decide

theorem keyOfEval_progressBackgroundColor : keyOf ("progress-background-color".data) = some .progressBackgroundColor := by decide

theorem keyOfEval_iconPath : keyOf ("icon-path".data) = some .iconPath := by decide

theorem keyOfEval_iconLocation : keyOf ("icon-location".data) = some .iconLocation := by decide

theorem keyOfEval_iconBorderRadius : keyOf ("icon-border-radius".data) = some .iconBorderRadius := by decide

theorem keyOfEval_groupBy : keyOf ("group-by".data) = some .groupBy := by decide

theorem keyOfEval_layout : keyOf ("layout".data) = some .layout := by decide

theorem keyOfEval_textAlign : keyOf ("text-align".data) = some .textAlign := by decide

theorem tkvEval_sort (w : Str) :
    toKvPairs { mkEmpty with sort := some w } = [("sort".data, w)] := by
  simp [toKvPairs, opt1, mkEmpty]

theorem tkvEval_layer (l : Layer) :
    toKvPairs { mkEmpty with layer := some l } = [("layer".data, toLower (layerDebug l))] := by
  simp [toKvPairs, opt1, mkEmpty]

theorem tkvEval_backgroundColor (w : Str) :
    toKvPairs { mkEmpty with backgroundColor := some w } = [("background-color".data, w)] := by
  simp [toKvPairs, opt1, mkEmpty]

theorem tkvEval_width (n : Nat) :
    toKvPairs { mkEmpty with width := some n } = [("width".data, natToStr n)] := by
  simp [toKvPairs, opt1, mkEmpty]

theorem tkvEval_height (n : Nat) :
    toKvPairs { mkEmpty with height := some n } = [("height".data, natToStr n)] := by
  simp [toKvPairs, opt1, mkEmpty]

theorem tkvEval_borderSize (n : Nat) :
    toKvPairs { mkEmpty with borderSize := some n } = [("border-size".data, natToStr n)] := by
  simp [toKvPairs, opt1, mkEmpty]

theorem tkvEval_borderColor (w : Str) :
    toKvPairs { mkEmpty with borderColor := some w } = [("border-color".data, w)] := by
  simp [toKvPairs, opt1, mkEmpty]

theorem tkvEval_borderRadius (n : Nat) :
    toKvPairs { mkEmpty with borderRadius := some n } = [("border-radius".data, natToStr n)] := by
  simp [toKvPairs, opt1, mkEmpty]

theorem tkvEval_icons (b : Bool) :
    toKvPairs { mkEmpty with icons := some b } = [("icons".data, boolToStr b)] := by
  simp [toKvPairs, opt1, mkEmpty]

theorem tkvEval_maxIconSize (n : Nat) :
    toKvPairs { mkEmpty with maxIconSize := some n } = [("max-icon-size".data, natToStr n)] := by
  simp [toKvPairs, opt1, mkEmpty]

theorem tkvEval_defaultTimeout (n : Nat) :
    toKvPairs { mkEmpty with defaultTimeout := some n } = [("default-timeout".data, natToStr n)] := by
  simp [toKvPairs, opt1, mkEmpty]

theorem tkvEval_ignoreTimeout (b : Bool) :
    toKvPairs { mkEmpty with ignoreTimeout := some b } = [("ignore-timeout".data, boolToStr b)] := by
  simp [toKvPairs, opt1, mkEmpty]

theorem tkvEval_font (w : Str) :
    toKvPairs { mkEmpty with font := some w } = [("font".data, w)] := by
  simp [toKvPairs, opt1, mkEmpty]

theorem tkvEval_outerMargin (n : Nat) :
    toKvPairs { mkEmpty with outerMargin := some n } = [("outer-margin".data, natToStr n)] := by
  simp [toKvPairs, opt1, mkEmpty]

theorem tkvEval_padding (n : Nat) :
    toKvPairs { mkEmpty with padding := some n } = [("padding".data, natToStr n)] := by
  simp [toKvPairs, opt1, mkEmpty]

theorem tkvEval_markup (b : Bool) :
    toKvPairs { mkEmpty with markup := some b } = [("markup".data, boolToStr b)] := by
  simp [toKvPairs, opt1, mkEmpty]

theorem tkvEval_progressColor (w : Str) :
    toKvPairs { mkEmpty with progressColor := some w } = [("progress-color".data, w)] := by
  simp [toKvPairs, opt1, mkEmpty]

theorem tkvEval_progressBackgroundColor (w : Str) :
    toKvPairs { mkEmpty with progressBackgroundColor := some w } = [("progress-background-color".data, w)] := by
  simp [toKvPairs, opt1, mkEmpty]

theorem tkvEval_iconPath (w : Str) :
    toKvPairs { mkEmpty with iconPath := some w } = [("icon-path".data, w)] := by
  simp [toKvPairs, opt1, mkEmpty]

theorem tkvEval_iconLocation (l : IconLocation) :
    toKvPairs { mkEmpty with iconLocation := some l } = [("icon-location".data, toLower (iconLocDebug l))] := by
  simp [toKvPairs, opt1, mkEmpty]

theorem tkvEval_iconBorderRadius (n : Nat) :
    toKvPairs { mkEmpty with iconBorderRadius := some n } = [("icon-border-radius".data, natToStr n)] := by
  simp [toKvPairs, opt1, mkEmpty]

theorem tkvEval_groupBy (w : Str) :
    toKvPairs { mkEmpty with groupBy := some w } = [("group-by".data, w)] := by
  simp [toKvPairs, opt1, mkEmpty]

theorem tkvEval_layout (l : LayoutKind) :
    toKvPairs { mkEmpty with layout := some l } = [("layout".data, toLower (layoutDebug l))] := by
  simp [toKvPairs, opt1, mkEmpty]

theorem tkvEval_textAlign (l : TextAlign) :
    toKvPairs { mkEmpty with textAlign := some l } = [("text-align".data, toLower (textAlignDebug l))] := by
  simp [toKvPairs, opt1, mkEmpty]

theorem applyKvs_single (a b : Str) :
    applyKvs mkEmpty [(a, b)] = setFromKv mkEmpty a b := rfl

/-- C5: set-then-emit-then-set is lossless. For any key/value pair applied to
the empty typed config by `set_from_kv`, re-applying all pairs emitted by
`to_kv_pairs` to an empty config reproduces exactly the same config, so every
field that was successfully set is reproduced with the same value. -/
theorem claim5_kv_roundtrip (k v : Str) :
    applyKvs mkEmpty (toKvPairs (setFromKv mkEmpty k v)) = setFromKv mkEmpty k v := by
  cases hk : keyOf k with
  | none =>
    have e : setFromKv mkEmpty k v = mkEmpty := by
      unfold setFromKv
      rw [hk]
    rw [e]
    rfl
  | some kk =>
    cases kk
    case sort =>
      have e : setFromKv mkEmpty k v = { mkEmpty with sort := some (trim v) } := by
        unfold setFromKv
        rw [hk]
      have e4 : setFromKv mkEmpty ("sort".data) (trim v) = { mkEmpty with sort := some (trim (trim v)) } := by
        unfold setFromKv
        rw [keyOfEval_sort]
      rw [e, tkvEval_sort, applyKvs_single, e4, trim_trim]
    case layer =>
      have e : setFromKv mkEmpty k v = (match layerFromStr v with
          | some l => { mkEmpty with layer := some l }
          | none => mkEmpty) := by
        unfold setFromKv
        rw [hk]
      rw [e]
      cases hl : layerFromStr v with
      | none => rfl
      | some l =>
        have e4 : setFromKv mkEmpty ("layer".data) (toLower (layerDebug l)) = (match layerFromStr (toLower (layerDebug l)) with
            | some x => { mkEmpty with layer := some x }
            | none => mkEmpty) := by
          unfold setFromKv
          rw [keyOfEval_layer]
        rw [tkvEval_layer, applyKvs_single, e4, layerFromStr_round l]
    case backgroundColor =>
      have e : setFromKv mkEmpty k v = { mkEmpty with backgroundColor := some (trim v) } := by
        unfold setFromKv
        rw [hk]
      have e4 : setFromKv mkEmpty ("background-color".data) (trim v) = { mkEmpty with backgroundColor := some (trim (trim v)) } := by
        unfold setFromKv
        rw [keyOfEval_backgroundColor]
      rw [e, tkvEval_backgroundColor, applyKvs_single, e4, trim_trim]
    case width =>
      have e : setFromKv mkEmpty k v = { mkEmpty with width := parsePx v } := by
        unfold setFromKv
        rw [hk]
      rw [e]
      cases hp : parsePx v with
      | none =>
        have eN : ({ mkEmpty with width := (none : Option Nat) } : MakoConfig) = mkEmpty := rfl
        rw [eN]
        rfl
      | some n =>
        have e4 : setFromKv mkEmpty ("width".data) (natToStr n) = { mkEmpty with width := parsePx (natToStr n) } := by
          unfold setFromKv
          rw [keyOfEval_width]
        rw [tkvEval_width, applyKvs_single, e4, parsePx_natToStr v n hp]
    case height =>
      have e : setFromKv mkEmpty k v = { mkEmpty with height := parsePx v } := by
        unfold setFromKv
        rw [hk]
      rw [e]
      cases hp : parsePx v with
      | none =>
        have eN : ({ mkEmpty with height := (none : Option Nat) } : MakoConfig) = mkEmpty := rfl
        rw [eN]
        rfl
      | some n =>
        have e4 : setFromKv mkEmpty ("height".data) (natToStr n) = { mkEmpty with height := parsePx (natToStr n) } := by
          unfold setFromKv
          rw [keyOfEval_height]
        rw [tkvEval_height, applyKvs_single, e4, parsePx_natToStr v n hp]
    case borderSize =>
      have e : setFromKv mkEmpty k v = { mkEmpty with borderSize := parsePx v } := by
        unfold setFromKv
        rw [hk]
      rw [e]
      cases hp : parsePx v with
      | none =>
        have eN : ({ mkEmpty with borderSize := (none : Option Nat) } : MakoConfig) = mkEmpty := rfl
        rw [eN]
        rfl
      | some n =>
        have e4 : setFromKv mkEmpty ("border-size".data) (natToStr n) = { mkEmpty with borderSize := parsePx (natToStr n) } := by
          unfold setFromKv
          rw [keyOfEval_borderSize]
        rw [tkvEval_borderSize, applyKvs_single, e4, parsePx_natToStr v n hp]
    case borderColor =>
      have e : setFromKv mkEmpty k v = { mkEmpty with borderColor := some (trim v) } := by
        unfold setFromKv
        rw [hk]
      have e4 : setFromKv mkEmpty ("border-color".data) (trim v) = { mkEmpty with borderColor := some (trim (trim v)) } := by
        unfold setFromKv
        rw [keyOfEval_borderColor]
      rw [e, tkvEval_borderColor, applyKvs_single, e4, trim_trim]
    case borderRadius =>
      have e : setFromKv mkEmpty k v = { mkEmpty with borderRadius := parsePx v } := by
        unfold setFromKv
        rw [hk]
      rw [e]
      cases hp : parsePx v with
      | none =>
        have eN : ({ mkEmpty with borderRadius := (none : Option Nat) } : MakoConfig) = mkEmpty := rfl
        rw [eN]
        rfl
      | some n =>
        have e4 : setFromKv mkEmpty ("border-radius".data) (natToStr n) = { mkEmpty with borderRadius := parsePx (natToStr n) } := by
          unfold setFromKv
          rw [keyOfEval_borderRadius]
        rw [tkvEval_borderRadius, applyKvs_single, e4, parsePx_natToStr v n hp]
    case icons =>
      have e : setFromKv mkEmpty k v = { mkEmpty with icons := parseBool v } := by
        unfold setFromKv
        rw [hk]
      rw [e]
      cases hp : parseBool v with
      | none =>
        have eN : ({ mkEmpty with icons := (none : Option Bool) } : MakoConfig) = mkEmpty := rfl
        rw [eN]
        rfl
      | some b =>
        have e4 : setFromKv mkEmpty ("icons".data) (boolToStr b) = { mkEmpty with icons := parseBool (boolToStr b) } := by
          unfold setFromKv
          rw [keyOfEval_icons]
        rw [tkvEval_icons, applyKvs_single, e4, parseBool_boolToStr b]
    case maxIconSize =>
      have e : setFromKv mkEmpty k v = { mkEmpty with maxIconSize := parsePx v } := by
        unfold setFromKv
        rw [hk]
      rw [e]
      cases hp : parsePx v with
      | none =>
        have eN : ({ mkEmpty with maxIconSize := (none : Option Nat) } : MakoConfig) = mkEmpty := rfl
        rw [eN]
        rfl
      | some n =>
        have e4 : setFromKv mkEmpty ("max-icon-size".data) (natToStr n) = { mkEmpty with maxIconSize := parsePx (natToStr n) } := by
          unfold setFromKv
          rw [keyOfEval_maxIconSize]
        rw [tkvEval_maxIconSize, applyKvs_single, e4, parsePx_natToStr v n hp]
    case defaultTimeout =>
      have e : setFromKv mkEmpty k v = { mkEmpty with defaultTimeout := parseU32 v } := by
        unfold setFromKv
        rw [hk]
      rw [e]
      cases hp : parseU32 v with
      | none =>
        have eN : ({ mkEmpty with defaultTimeout := (none : Option Nat) } : MakoConfig) = mkEmpty := rfl
        rw [eN]
        rfl
      | some n =>
        have e4 : setFromKv mkEmpty ("default-timeout".data) (natToStr n) = { mkEmpty with defaultTimeout := parseU32 (natToStr n) } := by
          unfold setFromKv
          rw [keyOfEval_defaultTimeout]
        rw [tkvEval_defaultTimeout, applyKvs_single, e4, parseU32_natToStr v n hp]
    case ignoreTimeout =>
      have e : setFromKv mkEmpty k v = { mkEmpty with ignoreTimeout := parseBool v } := by
        unfold setFromKv
        rw [hk]
      rw [e]
      cases hp : parseBool v with
      | none =>
        have eN : ({ mkEmpty with ignoreTimeout := (none : Option Bool) } : MakoConfig) = mkEmpty := rfl
        rw [eN]
        rfl
      | some b =>
        have e4 : setFromKv mkEmpty ("ignore-timeout".data) (boolToStr b) = { mkEmpty with ignoreTimeout := parseBool (boolToStr b) } := by
          unfold setFromKv
          rw [keyOfEval_ignoreTimeout]
        rw [tkvEval_ignoreTimeout, applyKvs_single, e4, parseBool_boolToStr b]
    case font =>
      have e : setFromKv mkEmpty k v = { mkEmpty with font := some (trim v) } := by
        unfold setFromKv
        rw [hk]
      have e4 : setFromKv mkEmpty ("font".data) (trim v) = { mkEmpty with font := some (trim (trim v)) } := by
        unfold setFromKv
        rw [keyOfEval_font]
      rw [e, tkvEval_font, applyKvs_single, e4, trim_trim]
    case outerMargin =>
      have e : setFromKv mkEmpty k v = { mkEmpty with outerMargin := parsePx v } := by
        unfold setFromKv
        rw [hk]
      rw [e]
      cases hp : parsePx v with
      | none =>
        have eN : ({ mkEmpty with outerMargin := (none : Option Nat) } : MakoConfig) = mkEmpty := rfl
        rw [eN]
        rfl
      | some n =>
        have e4 : setFromKv mkEmpty ("outer-margin".data) (natToStr n) = { mkEmpty with outerMargin := parsePx (natToStr n) } := by
          unfold setFromKv
          rw [keyOfEval_outerMargin]
        rw [tkvEval_outerMargin, applyKvs_single, e4, parsePx_natToStr v n hp]
    case padding =>
      have e : setFromKv mkEmpty k v = { mkEmpty with padding := parsePx v } := by
        unfold setFromKv
        rw [hk]
      rw [e]
      cases hp : parsePx v with
      | none =>
        have eN : ({ mkEmpty with padding := (none : Option Nat) } : MakoConfig) = mkEmpty := rfl
        rw [eN]
        rfl
      | some n =>
        have e4 : setFromKv mkEmpty ("padding".data) (natToStr n) = { mkEmpty with padding := parsePx (natToStr n) } := by
          unfold setFromKv
          rw [keyOfEval_padding]
        rw [tkvEval_padding, applyKvs_single, e4, parsePx_natToStr v n hp]
    case markup =>
      have e : setFromKv mkEmpty k v = { mkEmpty with markup := parseBool v } := by
        unfold setFromKv
        rw [hk]
      rw [e]
      cases hp : parseBool v with
      | none =>
        have eN : ({ mkEmpty with markup := (none : Option Bool) } : MakoConfig) = mkEmpty := rfl
        rw [eN]
        rfl
      | some b =>
        have e4 : setFromKv mkEmpty ("markup".data) (boolToStr b) = { mkEmpty with markup := parseBool (boolToStr b) } := by
          unfold setFromKv
          rw [keyOfEval_markup]
        rw [tkvEval_markup, applyKvs_single, e4, parseBool_boolToStr b]
    case progressColor =>
      have e : setFromKv mkEmpty k v = { mkEmpty with progressColor := some (trim v) } := by
        unfold setFromKv
        rw [hk]
      have e4 : setFromKv mkEmpty ("progress-color".data) (trim v) = { mkEmpty with progressColor := some (trim (trim v)) } := by
        unfold setFromKv
        rw [keyOfEval_progressColor]
      rw [e, tkvEval_progressColor, applyKvs_single, e4, trim_trim]
    case progressBackgroundColor =>
      have e : setFromKv mkEmpty k v = { mkEmpty with progressBackgroundColor := some (trim v) } := by
        unfold setFromKv
        rw [hk]
      have e4 : setFromKv mkEmpty ("progress-background-color".data) (trim v) = { mkEmpty with progressBackgroundColor := some (trim (trim v)) } := by
        unfold setFromKv
        rw [keyOfEval_progressBackgroundColor]
      rw [e, tkvEval_progressBackgroundColor, applyKvs_single, e4, trim_trim]
    case iconPath =>
      have e : setFromKv mkEmpty k v = { mkEmpty with iconPath := some (trim v) } := by
        unfold setFromKv
        rw [hk]
      have e4 : setFromKv mkEmpty ("icon-path".data) (trim v) = { mkEmpty with iconPath := some (trim (trim v)) } := by
        unfold setFromKv
        rw [keyOfEval_iconPath]
      rw [e, tkvEval_iconPath, applyKvs_single, e4, trim_trim]
    case iconLocation =>
      have e : setFromKv mkEmpty k v = { mkEmpty with iconLocation := some (iconLocFromStr v) } := by
        unfold setFromKv
        rw [hk]
      have e4 : setFromKv mkEmpty ("icon-location".data) (toLower (iconLocDebug (iconLocFromStr v))) = { mkEmpty with iconLocation := some (iconLocFromStr (toLower (iconLocDebug (iconLocFromStr v)))) } := by
        unfold setFromKv
        rw [keyOfEval_iconLocation]
      rw [e, tkvEval_iconLocation, applyKvs_single, e4, iconLocFromStr_round v]
    case iconBorderRadius =>
      have e : setFromKv mkEmpty k v = { mkEmpty with iconBorderRadius := parsePx v } := by
        unfold setFromKv
        rw [hk]
      rw [e]
      cases hp : parsePx v with
      | none =>
        have eN : ({ mkEmpty with iconBorderRadius := (none : Option Nat) } : MakoConfig) = mkEmpty := rfl
        rw [eN]
        rfl
      | some n =>
        have e4 : setFromKv mkEmpty ("icon-border-radius".data) (natToStr n) = { mkEmpty with iconBorderRadius := parsePx (natToStr n) } := by
          unfold setFromKv
          rw [keyOfEval_iconBorderRadius]
        rw [tkvEval_iconBorderRadius, applyKvs_single, e4, parsePx_natToStr v n hp]
    case groupBy =>
      have e : setFromKv mkEmpty k v = { mkEmpty with groupBy := some (trim v) } := by
        unfold setFromKv
        rw [hk]
      have e4 : setFromKv mkEmpty ("group-by".data) (trim v) = { mkEmpty with groupBy := some (trim (trim v)) } := by
        unfold setFromKv
        rw [keyOfEval_groupBy]
      rw [e, tkvEval_groupBy, applyKvs_single, e4, trim_trim]
    case layout =>
      have e : setFromKv mkEmpty k v = { mkEmpty with layout := some (layoutFromStr v) } := by
        unfold setFromKv
        rw [hk]
      have e4 : setFromKv mkEmpty ("layout".data) (toLower (layoutDebug (layoutFromStr v))) = { mkEmpty with layout := some (layoutFromStr (toLower (layoutDebug (layoutFromStr v)))) } := by
        unfold setFromKv
        rw [keyOfEval_layout]
      rw [e, tkvEval_layout, applyKvs_single, e4, layoutFromStr_round v]
    case textAlign =>
      have e : setFromKv mkEmpty k v = (match textAlignFromStr v with
          | some l => { mkEmpty with textAlign := some l }
          | none => mkEmpty) := by
        unfold setFromKv
        rw [hk]
      rw [e]
      cases hl : textAlignFromStr v with
      | none => rfl
      | some l =>
        have e4 : setFromKv mkEmpty ("text-align".data) (toLower (textAlignDebug l)) = (match textAlignFromStr (toLower (textAlignDebug l)) with
            | some x => { mkEmpty with textAlign := some x }
            | none => mkEmpty) := by
          unfold setFromKv
          rw [keyOfEval_textAlign]
        rw [tkvEval_textAlign, applyKvs_single, e4, textAlignFromStr_round l]

/-- C6: the best-effort parse policy on the spec's examples. `width=120px`
strips the unit and stores 120; `width=-5` fails the unsigned parse and the
field stays unset; `icons=on` stores true; `icons=maybe` stays unset;
`layer=Overlay` matches case-insensitively and stores `Overlay`. -/
theorem claim6_best_effort_examples :
    (setFromKv mkEmpty ("width".data) ("120px".data)).width = some 120 ∧
    (setFromKv mkEmpty ("width".data) ("-5".data)).width = none ∧
    (setFromKv mkEmpty ("icons".data) ("on".data)).icons = some true ∧
    (setFromKv mkEmpty ("icons".data) ("maybe".data)).icons = none ∧
    (setFromKv mkEmpty ("layer".data) ("Overlay".data)).layer = some .Overlay :=
  ⟨by decide, by decide, by decide, by decide, by decide⟩

/-- C3 (counterexample): the stored `Other` text is not the verbatim input.
`set_from_kv("layout", "Foo")` stores `Other("foo")` — the lowercased,
trimmed text — and not `Other("Foo")` as the claim predicts. -/
theorem claim3_verbatim_counterexample :
    (setFromKv mkEmpty ("layout".data) ("Foo".data)).layout =
      some (.Other ("foo".data)) ∧
    (setFromKv mkEmpty ("layout".data) ("Foo".data)).layout ≠
      some (.Other ("Foo".data)) :=
  ⟨by decide, by decide⟩

/-- C3 (amended): for every input string whose lowercased trimmed form is
outside the fixed vocabulary, `set_from_kv` on `layout` or `icon-location`
stores the lowercased trimmed input (not the verbatim input) in the `Other`
variant, while `layer` and `text-align` leave the field unchanged. -/
theorem claim3_open_enums_amended (c : MakoConfig) (s : Str) :
    (toLower (trim s) ∉ ["normal".data, "overlay".data, "center".data] →
      (setFromKv c ("layout".data) s).layout =
        some (.Other (toLower (trim s)))) ∧
    (toLower (trim s) ∉ ["left".data, "right".data, "top".data, "bottom".data,
        "top-left".data, "topleft".data, "top-right".data, "topright".data,
        "bottom-right".data, "bottomright".data, "center".data] →
      (setFromKv c ("icon-location".data) s).iconLocation =
        some (.Other (toLower (trim s)))) ∧
    (toLower (trim s) ∉ ["overlay".data, "bottom".data, "top".data, "normal".data] →
      (setFromKv c ("layer".data) s).layer = c.layer) ∧
    (toLower (trim s) ∉ ["left".data, "center".data, "right".data] →
      (setFromKv c ("text-align".data) s).textAlign = c.textAlign) := by
  refine ⟨?_, ?_, ?_, ?_⟩
  · intro hm
    simp only [List.mem_cons, List.not_mem_nil, or_false, not_or] at hm
    obtain ⟨h1, h2, h3⟩ := hm
    have e : setFromKv c ("layout".data) s = { c with layout := some (layoutFromStr s) } := by
      unfold setFromKv
      rw [keyOfEval_layout]
    rw [e]
    show some (layoutFromStr s) = _
    rw [layoutFromStr_eq_other s h1 h2 h3]
  · intro hm
    simp only [List.mem_cons, List.not_mem_nil, or_false, not_or] at hm
    obtain ⟨h1, h2, h3, h4, h5, h6, h7, h8, h9, h10, h11⟩ := hm
    have e : setFromKv c ("icon-location".data) s = { c with iconLocation := some (iconLocFromStr s) } := by
      unfold setFromKv
      rw [keyOfEval_iconLocation]
    rw [e]
    show some (iconLocFromStr s) = _
    rw [iconLocFromStr_eq_other s h1 h2 h3 h4 h5 h6 h7 h8 h9 h10 h11]
  · intro hm
    simp only [List.mem_cons, List.not_mem_nil, or_false, not_or] at hm
    obtain ⟨h1, h2, h3, h4⟩ := hm
    have e : setFromKv c ("layer".data) s = (match layerFromStr s with
        | some l => { c with layer := some l }
        | none => c) := by
      unfold setFromKv
      rw [keyOfEval_layer]
    rw [e, layerFromStr_eq_none s h1 h2 h3 h4]
  · intro hm
    simp only [List.mem_cons, List.not_mem_nil, or_false, not_or] at hm
    obtain ⟨h1, h2, h3⟩ := hm
    have e : setFromKv c ("text-align".data) s = (match textAlignFromStr s with
        | some a => { c with textAlign := some a }
        | none => c) := by
      unfold setFromKv
      rw [keyOfEval_textAlign]
    rw [e, textAlignFromStr_eq_none s h1 h2 h3]

/-- C3 (witness): the string `zzz` is outside every vocabulary; `layout` and
`icon-location` store it in `Other` while `layer` and `text-align` stay
unchanged on the empty config. -/
theorem claim3_open_enums_witness :
    (setFromKv mkEmpty ("layout".data) ("zzz".data)).layout =
      some (.Other (toLower (trim ("zzz".data)))) ∧
    (setFromKv mkEmpty ("icon-location".data) ("zzz".data)).iconLocation =
      some (.Other (toLower (trim ("zzz".data)))) ∧
    (setFromKv mkEmpty ("layer".data) ("zzz".data)).layer = mkEmpty.layer ∧
    (setFromKv mkEmpty ("text-align".data) ("zzz".data)).textAlign =
      mkEmpty.textAlign :=
  ⟨(claim3_open_enums_amended mkEmpty ("zzz".data)).1 (by decide),
   (claim3_open_enums_amended mkEmpty ("zzz".data)).2.1 (by decide),
   (claim3_open_enums_amended mkEmpty ("zzz".data)).2.2.1 (by decide),
   (claim3_open_enums_amended mkEmpty ("zzz".data)).2.2.2 (by decide)⟩

/-! ### Embedding of the edit session (`src/main.rs`)

The modal event loop is modelled as a step function over the application
state. Terminal rendering is outside the model. The outcome of `Config::save`
and `Config::reload` for the current iteration is provided by an `Env`;
desktop notifications fired by an event are returned as a list of
`(key, value)` pairs alongside the new state. -/

/-- The static key registry `known_keys()`. -/
def knownKeys : List (Str × Str) :=
  [("sort".data, "Sort order expression, e.g. -time".data),
   ("layer".data, "Window layer: overlay, normal, top, bottom".data),
   ("background-color".data, "Background color (#rrggbb or named)".data),
   ("width".data, "Notification width in pixels".data),
   ("height".data, "Notification height in pixels".data),
   ("border-size".data, "Border width in pixels".data),
   ("border-color".data, "Border color (#rrggbb)".data),
   ("border-radius".data, "Corner radius in pixels".data),
   ("icons".data, "Show icons: 1 or 0".data),
   ("max-icon-size".data, "Maximum icon size in pixels".data),
   ("default-timeout".data, "Default timeout in milliseconds".data),
   ("ignore-timeout".data, "Ignore per-notification timeout: 1 or 0".data),
   ("font".data, "Font description, e.g. ".data ++ '\'' :: "monospace 10".data ++ ['\'']),
   ("outer-margin".data, "Outer margin in pixels".data),
   ("padding".data, "Padding in pixels".data),
   ("markup".data, "Enable markup rendering: 1 or 0".data),
   ("progress-color".data, "Progress bar color".data),
   ("progress-background-color".data, "Progress background color".data),
   ("icon-path".data, "Search paths for icons (colon separated)".data),
   ("icon-location".data, "Icon position: left, right, top, bottom, top-left, ...".data),
   ("anchor".data, "Anchor position: top-right, top-center, top-left, bottom-right, bottom-center, bottom-left, center-right, center-left, center".data),
   ("anchor-point".data, "Alias for anchor; same values as anchor".data),
   ("<custom>".data, "Create a custom key name (type after selecting this)".data),
   ("icon-border-radius".data, "Icon corner radius in pixels".data),
   ("group-by".data, "Group notifications by this property (e.g. category)".data),
   ("layout".data, "Layout hint: normal, overlay, center".data),
   ("text-align".data, "Text alignment: left, center, right".data)]

/-- Whether the first string begins with the second. -/
def startsW : Str → Str → Bool
  | _, [] => true
  | [], _ :: _ => false
  | c :: cs, d :: ds => c = d && startsW cs ds

/-- Rust `str::contains`: substring search. -/
def containsSub (hay needle : Str) : Bool :=
  match hay with
  | [] => needle.isEmpty
  | c :: t => startsW (c :: t) needle || containsSub t needle

/-- The filtered key list built by the AddKey mode: known keys whose name or
description contains the lowercased input as a substring (everything when the
input is empty). -/
def filterKeys (input : Str) : List Str :=
  (knownKeys.filter (fun kd =>
    (toLower input).isEmpty || containsSub (toLower kd.1) (toLower input) ||
      containsSub (toLower kd.2) (toLower input))).map (fun kd => kd.1)

/-- The UI mode (`enum Mode` in `src/main.rs`). -/
inductive Mode where
  | Normal
  | EditValue (idx : Nat) (input : Str)
  | AddKey (input : Str)
  | AddCustomKey (input : Str)
  | AddValue (key : Str) (input : Str)
  | ConfirmDelete (idx : Nat)
deriving DecidableEq

/-- The key events the handlers distinguish. -/
inductive KeyEv where
  | ch (c : Char)
  | enter
  | esc
  | backspace
  | down
  | up
  | other
deriving DecidableEq

/-- Environment for one loop iteration: whether `Config::save` succeeds, and
the classified outcome of `Config::reload` (success flag and trimmed text). -/
structure Env where
  saveOk : Bool
  reloadOutcome : Bool × Str
deriving DecidableEq

/-- The mutable state of the edit session: the parameter list, the active
mode, the two list selections, and the last reload outcome. -/
structure AppState where
  params : List Param
  mode : Mode
  mainSel : Option Nat
  keySel : Option Nat
  lastReload : Option (Bool × Str)
deriving DecidableEq

/-- Default parameter, standing in for the value of an in-bounds index. -/
def dParam : Param := ⟨[], []⟩

/-- `KeyCode::Down` / `j` in Normal mode: cyclic next selection. -/
def navNext (st : AppState) : AppState :=
  if st.params = [] then st
  else { st with mainSel := some ((st.mainSel.getD 0 + 1) % st.params.length) }

/-- `KeyCode::Up` / `k` in Normal mode: cyclic previous selection. -/
def navPrev (st : AppState) : AppState :=
  if st.params = [] then st
  else { st with mainSel := some (if st.mainSel.getD 0 = 0
    then st.params.length - 1 else st.mainSel.getD 0 - 1) }

/-- `Enter` / `e` in Normal mode: edit the selected value. -/
def enterEdit (st : AppState) : AppState :=
  match st.mainSel with
  | some i => { st with mode := .EditValue i (st.params.getD i dParam).value }
  | none => st

/-- `d` in Normal mode: ask to confirm deletion of the selected entry. -/
def enterDel (st : AppState) : AppState :=
  match st.mainSel with
  | some i => { st with mode := .ConfirmDelete i }
  | none => st

/-- `cfg.params[idx].value = input`: overwrite the value at an index. -/
def setValAt : List Param → Nat → Str → List Param
  | [], _, _ => []
  | p :: ps, 0, w => ⟨p.key, w⟩ :: ps
  | p :: ps, i + 1, w => p :: setValAt ps i w

/-- Normal-mode handler. -/
def stepNormal (st : AppState) (ev : KeyEv) : AppState :=
  match ev with
  | .ch c =>
    if c = 'q' then st
    else if c = 'j' then navNext st
    else if c = 'k' then navPrev st
    else if c = 'e' then enterEdit st
    else if c = 'a' then { st with mode := .AddKey [] }
    else if c = 'd' then enterDel st
    else st
  | .down => navNext st
  | .up => navPrev st
  | .enter => enterEdit st
  | _ => st

/-- EditValue-mode handler. On Enter with an in-bounds index the value is
written into the list first; only when save succeeds are the notification
fired and the reload outcome recorded. -/
def stepEdit (env : Env) (st : AppState) (i : Nat) (inp : Str) (ev : KeyEv) :
    AppState × List (Str × Str) :=
  match ev with
  | .esc => ({ st with mode := .Normal }, [])
  | .enter =>
    if i < st.params.length then
      if env.saveOk then
        ({ st with params := setValAt st.params i inp, mode := .Normal,
                   lastReload := some env.reloadOutcome },
         [((st.params.getD i dParam).key, inp)])
      else
        ({ st with params := setValAt st.params i inp, mode := .Normal }, [])
    else ({ st with mode := .Normal }, [])
  | .backspace => ({ st with mode := .EditValue i inp.dropLast }, [])
  | .ch c => ({ st with mode := .EditValue i (inp ++ [c]) }, [])
  | _ => (st, [])

/-- Cyclic next selection over the filtered key list. -/
def addKeyNavNext (st : AppState) (inp : Str) : AppState :=
  if filterKeys inp = [] then st
  else { st with keySel := some ((st.keySel.getD 0 + 1) % (filterKeys inp).length) }

/-- Cyclic previous selection over the filtered key list. -/
def addKeyNavPrev (st : AppState) (inp : Str) : AppState :=
  if filterKeys inp = [] then st
  else { st with keySel := some (if st.keySel.getD 0 = 0
    then (filterKeys inp).length - 1 else st.keySel.getD 0 - 1) }

/-- AddKey-mode handler: Enter resolves the highlighted filtered entry
(`<custom>` opens the custom-key prompt); `j`/`k` and the arrows navigate the
filtered list; other characters refine the filter. -/
def stepAddKey (st : AppState) (inp : Str) (ev : KeyEv) : AppState :=
  match ev with
  | .esc => { st with mode := .Normal }
  | .enter =>
    match st.keySel with
    | some i =>
      match (filterKeys inp).get? i with
      | some kname =>
        if kname = "<custom>".data then { st with mode := .AddCustomKey [] }
        else { st with mode := .AddValue kname [] }
      | none => { st with mode := .Normal }
    | none => { st with mode := .Normal }
  | .down => addKeyNavNext st inp
  | .up => addKeyNavPrev st inp
  | .ch c =>
    if c = 'j' then addKeyNavNext st inp
    else if c = 'k' then addKeyNavPrev st inp
    else { st with mode := .AddKey (inp ++ [c]) }
  | .backspace => { st with mode := .AddKey inp.dropLast }
  | _ => st

/-- AddCustomKey-mode handler: Enter with a nonempty trimmed name moves on to
the value prompt. -/
def stepAddCustom (st : AppState) (inp : Str) (ev : KeyEv) : AppState :=
  match ev with
  | .esc => { st with mode := .Normal }
  | .enter =>
    if trim inp = [] then { st with mode := .Normal }
    else { st with mode := .AddValue (trim inp) [] }
  | .backspace => { st with mode := .AddCustomKey inp.dropLast }
  | .ch c => { st with mode := .AddCustomKey (inp ++ [c]) }
  | _ => (st)

/-- AddValue-mode handler. On Enter with a nonempty key the parameter is
appended and the new last index selected regardless of the save outcome;
notify and reload happen only when save succeeds. -/
def stepAddValue (env : Env) (st : AppState) (kname inp : Str) (ev : KeyEv) :
    AppState × List (Str × Str) :=
  match ev with
  | .esc => ({ st with mode := .Normal }, [])
  | .enter =>
    if trim kname = [] then ({ st with mode := .Normal }, [])
    else
      if env.saveOk then
        ({ st with params := st.params ++ [⟨kname, inp⟩], mode := .Normal,
                   mainSel := some ((st.params ++ [(⟨kname, inp⟩ : Param)]).length - 1),
                   lastReload := some env.reloadOutcome },
         [(kname, inp)])
      else
        ({ st with params := st.params ++ [⟨kname, inp⟩], mode := .Normal,
                   mainSel := some ((st.params ++ [(⟨kname, inp⟩ : Param)]).length - 1) },
         [])
  | .backspace => ({ st with mode := .AddValue kname inp.dropLast }, [])
  | .ch c => ({ st with mode := .AddValue kname (inp ++ [c]) }, [])
  | _ => (st, [])

/-- ConfirmDelete-mode handler. `y`/`Y` with an in-bounds index removes the
entry, notifies with `<deleted>` and reloads only when save succeeds, and
adjusts the selection (previous index, or none when the list empties);
`n`/`N`/Esc declines. -/
def stepConfirm (env : Env) (st : AppState) (i : Nat) (ev : KeyEv) :
    AppState × List (Str × Str) :=
  match ev with
  | .ch c =>
    if c = 'y' ∨ c = 'Y' then
      if i < st.params.length then
        if env.saveOk then
          ({ st with params := removeParam st.params i, mode := .Normal,
                     mainSel := if removeParam st.params i = [] then none
                                else some (if i = 0 then 0 else i - 1),
                     lastReload := some env.reloadOutcome },
           [((st.params.getD i dParam).key, "<deleted>".data)])
        else
          ({ st with params := removeParam st.params i, mode := .Normal,
                     mainSel := if removeParam st.params i = [] then none
                                else some (if i = 0 then 0 else i - 1) },
           [])
      else ({ st with mode := .Normal }, [])
    else if c = 'n' ∨ c = 'N' then ({ st with mode := .Normal }, [])
    else (st, [])
  | .esc => ({ st with mode := .Normal }, [])
  | _ => (st, [])

/-- One iteration of the event loop: dispatch the key event to the active
mode's handler. The second component lists the notifications fired. -/
def step (env : Env) (st : AppState) (ev : KeyEv) : AppState × List (Str × Str) :=
  match st.mode with
  | .Normal => (stepNormal st ev, [])
  | .EditValue i inp => stepEdit env st i inp ev
  | .AddKey inp => (stepAddKey st inp ev, [])
  | .AddCustomKey inp => (stepAddCustom st inp ev, [])
  | .AddValue kname inp => stepAddValue env st kname inp ev
  | .ConfirmDelete i => stepConfirm env st i ev

/-- Startup seeding: an empty load is replaced by two default entries. -/
def seedParams (loaded : List Param) : List Param :=
  if loaded = [] then
    [⟨"font".data, "monospace 10".data⟩, ⟨"background-color".data, "#1d1f21".data⟩]
  else loaded

/-- The state after startup: seeded parameters, Normal mode, first entry
selected when the list is nonempty, key-chooser selection at 0, and the
outcome of the initial reload attempt. -/
def initState (env : Env) (loaded : List Param) : AppState :=
  { params := seedParams loaded,
    mode := .Normal,
    mainSel := if seedParams loaded = [] then none else some 0,
    keySel := some 0,
    lastReload := some env.reloadOutcome }

/-- Running the session: fold the step function over a list of events, each
with its own environment. -/
def runSession (env : Env) (loaded : List Param) (evs : List (Env × KeyEv)) :
    AppState :=
  evs.foldl (fun st pe => (step pe.1 st pe.2).1) (initState env loaded)

/-- The selection invariant on a parameter list and a selection: the
selection is `none` exactly when the list is empty, and any selected index is
in bounds. -/
def SelInvOn (ps : List Param) (msel : Option Nat) : Prop :=
  (msel = none ↔ ps = []) ∧ (∀ i, msel = some i → i < ps.length)

/-- The selection invariant of the main list. -/
def SelInv (st : AppState) : Prop := SelInvOn st.params st.mainSel

/-! ### Preservation of the selection invariant -/

theorem selInvOn_next (ps : List Param) (j : Nat) (hne : ps ≠ []) :
    SelInvOn ps (some ((j + 1) % ps.length)) := by
  refine ⟨⟨fun h2 => by simp at h2, fun h2 => absurd h2 hne⟩, fun i hi => ?_⟩
  rw [← Option.some_inj.mp hi]
  exact Nat.mod_lt _ (List.length_pos.mpr hne)

theorem selInvOn_prev (ps : List Param) (msel : Option Nat) (hne : ps ≠ [])
    (h : SelInvOn ps msel) :
    SelInvOn ps
      (some (if msel.getD 0 = 0 then ps.length - 1 else msel.getD 0 - 1)) := by
  refine ⟨⟨fun h2 => by simp at h2, fun h2 => absurd h2 hne⟩, fun i hi => ?_⟩
  rw [← Option.some_inj.mp hi]
  have hlen : 0 < ps.length := List.length_pos.mpr hne
  by_cases h0 : msel.getD 0 = 0
  · rw [if_pos h0]
    omega
  · rw [if_neg h0]
    cases hm : msel with
    | none =>
      rw [hm] at h0
      simp at h0
    | some j =>
      have hj := h.2 j hm
      simp only [Option.getD_some]
      omega

theorem length_setValAt (ps : List Param) (i : Nat) (w : Str) :
    (setValAt ps i w).length = ps.length := by
  induction ps generalizing i with
  | nil => rfl
  | cons p t ih =>
    cases i with
    | zero => rfl
    | succ j => simp [setValAt, ih]

theorem selInvOn_setValAt (ps : List Param) (i : Nat) (w : Str)
    (msel : Option Nat) (h : SelInvOn ps msel) :
    SelInvOn (setValAt ps i w) msel := by
  refine ⟨⟨fun h2 => ?_, fun h2 => ?_⟩, fun j hj => ?_⟩
  · rw [h.1.mp h2]
    rfl
  · have hl := length_setValAt ps i w
    rw [h2] at hl
    exact h.1.mpr (List.length_eq_zero.mp hl.symm)
  · rw [length_setValAt]
    exact h.2 j hj

theorem selInvOn_append (ps : List Param) (p : Param) :
    SelInvOn (ps ++ [p]) (some ((ps ++ [p]).length - 1)) := by
  refine ⟨⟨fun h2 => by simp at h2, fun h2 => by simp at h2⟩, fun i hi => ?_⟩
  rw [← Option.some_inj.mp hi]
  have hpos : 0 < (ps ++ [p]).length := by simp
  omega

theorem selInvOn_erase (ps : List Param) (i : Nat) (hi : i < ps.length) :
    SelInvOn (ps.eraseIdx i)
      (if ps.eraseIdx i = [] then none
       else some (if i = 0 then 0 else i - 1)) := by
  have hlen := List.length_eraseIdx_of_lt hi
  by_cases he : ps.eraseIdx i = []
  · rw [if_pos he]
    exact ⟨⟨fun _ => he, fun _ => rfl⟩, fun j hj => by simp at hj⟩
  · rw [if_neg he]
    refine ⟨⟨fun h2 => by simp at h2, fun h2 => absurd h2 he⟩, fun j hj => ?_⟩
    rw [← Option.some_inj.mp hj]
    have hpos : 0 < (ps.eraseIdx i).length := List.length_pos.mpr he
    by_cases h0 : i = 0
    · rw [if_pos h0]
      omega
    · rw [if_neg h0]
      omega

theorem navNext_selInv (st : AppState) (h : SelInv st) : SelInv (navNext st) := by
  unfold navNext
  split
  · exact h
  · rename_i hne
    exact selInvOn_next st.params (st.mainSel.getD 0) hne

theorem navPrev_selInv (st : AppState) (h : SelInv st) : SelInv (navPrev st) := by
  unfold navPrev
  split
  · exact h
  · rename_i hne
    exact selInvOn_prev st.params st.mainSel hne h

theorem enterEdit_selInv (st : AppState) (h : SelInv st) : SelInv (enterEdit st) := by
  unfold enterEdit
  split
  · exact h
  · exact h

theorem enterDel_selInv (st : AppState) (h : SelInv st) : SelInv (enterDel st) := by
  unfold enterDel
  split
  · exact h
  · exact h

theorem stepNormal_selInv (st : AppState) (ev : KeyEv) (h : SelInv st) :
    SelInv (stepNormal st ev) := by
  cases ev with
  | ch c =>
    show SelInv (if c = 'q' then st
      else if c = 'j' then navNext st
      else if c = 'k' then navPrev st
      else if c = 'e' then enterEdit st
      else if c = 'a' then { st with mode := .AddKey [] }
      else if c = 'd' then enterDel st
      else st)
    split_ifs
    · exact h
    · exact navNext_selInv st h
    · exact navPrev_selInv st h
    · exact enterEdit_selInv st h
    · exact h
    · exact enterDel_selInv st h
    · exact h
  | down => exact navNext_selInv st h
  | up => exact navPrev_selInv st h
  | enter => exact enterEdit_selInv st h
  | esc => exact h
  | backspace => exact h
  | other => exact h

theorem stepEdit_selInv (env : Env) (st : AppState) (i : Nat) (inp : Str)
    (ev : KeyEv) (h : SelInv st) : SelInv (stepEdit env st i inp ev).1 := by
  cases ev with
  | esc => exact h
  | backspace => exact h
  | ch c => exact h
  | enter =>
    simp only [stepEdit]
    split_ifs
    · exact selInvOn_setValAt st.params i inp st.mainSel h
    · exact selInvOn_setValAt st.params i inp st.mainSel h
    · exact h
  | down => exact h
  | up => exact h
  | other => exact h

theorem addKeyNavNext_selInv (st : AppState) (inp : Str) (h : SelInv st) :
    SelInv (addKeyNavNext st inp) := by
  unfold addKeyNavNext
  split
  · exact h
  · exact h

theorem addKeyNavPrev_selInv (st : AppState) (inp : Str) (h : SelInv st) :
    SelInv (addKeyNavPrev st inp) := by
  unfold addKeyNavPrev
  split
  · exact h
  · exact h

theorem stepAddKey_selInv (st : AppState) (inp : Str) (ev : KeyEv)
    (h : SelInv st) : SelInv (stepAddKey st inp ev) := by
  cases ev with
  | esc => exact h
  | backspace => exact h
  | enter =>
    simp only [stepAddKey]
    split
    · split
      · split
        · exact h
        · exact h
      · exact h
    · exact h
  | down => exact addKeyNavNext_selInv st inp h
  | up => exact addKeyNavPrev_selInv st inp h
  | ch c =>
    simp only [stepAddKey]
    split_ifs
    · exact addKeyNavNext_selInv st inp h
    · exact addKeyNavPrev_selInv st inp h
    · exact h
  | other => exact h

theorem stepAddCustom_selInv (st : AppState) (inp : Str) (ev : KeyEv)
    (h : SelInv st) : SelInv (stepAddCustom st inp ev) := by
  cases ev with
  | esc => exact h
  | backspace => exact h
  | ch c => exact h
  | enter =>
    simp only [stepAddCustom]
    split_ifs
    · exact h
    · exact h
  | down => exact h
  | up => exact h
  | other => exact h

theorem stepAddValue_selInv (env : Env) (st : AppState) (kname inp : Str)
    (ev : KeyEv) (h : SelInv st) : SelInv (stepAddValue env st kname inp ev).1 := by
  cases ev with
  | esc => exact h
  | backspace => exact h
  | ch c => exact h
  | enter =>
    simp only [stepAddValue]
    split_ifs
    · exact h
    · exact selInvOn_append st.params ⟨kname, inp⟩
    · exact selInvOn_append st.params ⟨kname, inp⟩
  | down => exact h
  | up => exact h
  | other => exact h

theorem stepConfirm_selInv (env : Env) (st : AppState) (i : Nat) (ev : KeyEv)
    (h : SelInv st) : SelInv (stepConfirm env st i ev).1 := by
  cases ev with
  | esc => exact h
  | backspace => exact h
  | enter => exact h
  | down => exact h
  | up => exact h
  | other => exact h
  | ch c =>
    simp only [stepConfirm]
    by_cases h1 : c = 'y' ∨ c = 'Y'
    · rw [if_pos h1]
      by_cases h2 : i < st.params.length
      · rw [if_pos h2]
        have hrm : removeParam st.params i = st.params.eraseIdx i := by
          unfold removeParam
          rw [if_pos h2]
        have hinv := selInvOn_erase st.params i h2
        rw [← hrm] at hinv
        by_cases h3 : env.saveOk = true
        · rw [if_pos h3]
          exact hinv
        · rw [if_neg h3]
          exact hinv
      · rw [if_neg h2]
        exact h
    · rw [if_neg h1]
      by_cases h4 : c = 'n' ∨ c = 'N'
      · rw [if_pos h4]
        exact h
      · rw [if_neg h4]
        exact h

theorem step_selInv (env : Env) (st : AppState) (ev : KeyEv) (h : SelInv st) :
    SelInv (step env st ev).1 := by
  unfold step
  split
  · exact stepNormal_selInv st ev h
  · exact stepEdit_selInv env st _ _ ev h
  · exact stepAddKey_selInv st _ ev h
  · exact stepAddCustom_selInv st _ ev h
  · exact stepAddValue_selInv env st _ _ ev h
  · exact stepConfirm_selInv env st _ ev h

theorem initState_selInv (env : Env) (loaded : List Param) :
    SelInv (initState env loaded) := by
  unfold initState
  split_ifs with hs
  · exact ⟨⟨fun _ => hs, fun _ => rfl⟩, fun i hi => by simp at hi⟩
  · exact ⟨⟨fun h2 => by simp at h2, fun h2 => absurd h2 hs⟩, fun i hi => by
      rw [← Option.some_inj.mp hi]
      exact List.length_pos.mpr hs⟩

theorem foldSteps_selInv (evs : List (Env × KeyEv)) : ∀ st : AppState,
    SelInv st →
    SelInv (evs.foldl (fun s pe => (step pe.1 s pe.2).1) st) := by
  induction evs with
  | nil => exact fun st h => h
  | cons pe t ih => exact fun st h => ih _ (step_selInv pe.1 st pe.2 h)

/-! ### Claims C7, C9 and C10 -/

/-- C7: when save fails, each of the three commit handlers applies the
mutation to the in-memory list but skips notify and reload — the returned
notification list is empty and the last-reload field is unchanged — and the
mutation is not rolled back: the edit commit stores the buffered value at the
index, the add commit appends and selects the new entry, and the delete
commit removes the entry and adjusts the selection. -/
theorem claim7_save_failure_skips_notify_reload (env : Env) (ps : List Param)
    (sel ksel : Option Nat) (lr : Option (Bool × Str)) (i : Nat)
    (kname inp : Str) (hsave : env.saveOk = false) :
    (i < ps.length →
      step env ⟨ps, .EditValue i inp, sel, ksel, lr⟩ .enter =
        (⟨setValAt ps i inp, .Normal, sel, ksel, lr⟩, [])) ∧
    (trim kname ≠ [] →
      step env ⟨ps, .AddValue kname inp, sel, ksel, lr⟩ .enter =
        (⟨ps ++ [⟨kname, inp⟩], .Normal, some ps.length, ksel, lr⟩, [])) ∧
    (i < ps.length →
      step env ⟨ps, .ConfirmDelete i, sel, ksel, lr⟩ (.ch 'y') =
        (⟨ps.eraseIdx i, .Normal,
          (if ps.eraseIdx i = [] then none
           else some (if i = 0 then 0 else i - 1)), ksel, lr⟩, [])) := by
  refine ⟨fun hi => ?_, fun hk => ?_, fun hi => ?_⟩
  · show stepEdit env ⟨ps, .EditValue i inp, sel, ksel, lr⟩ i inp .enter = _
    simp only [stepEdit]
    rw [if_pos hi, if_neg (by simp [hsave])]
  · show stepAddValue env ⟨ps, .AddValue kname inp, sel, ksel, lr⟩ kname inp .enter = _
    simp only [stepAddValue]
    rw [if_neg hk, if_neg (by simp [hsave])]
    simp [List.length_append]
  · show stepConfirm env ⟨ps, .ConfirmDelete i, sel, ksel, lr⟩ i (.ch 'y') = _
    have hrm : removeParam ps i = ps.eraseIdx i := by
      unfold removeParam
      rw [if_pos hi]
    simp only [stepConfirm]
    rw [if_pos (Or.inl trivial), if_pos hi, if_neg (by simp [hsave]), hrm]

/-- C7 (witness): with save failing, a concrete edit commit, add commit and
delete commit each mutate the list, keep the last reload outcome unchanged
and fire no notification. -/
theorem claim7_save_failure_witness :
    step ⟨false, (true, [])⟩
      ⟨[⟨"k".data, "v".data⟩], .EditValue 0 ("w".data), some 0, some 0, none⟩
      .enter =
      (⟨setValAt [⟨"k".data, "v".data⟩] 0 ("w".data), .Normal, some 0, some 0,
        none⟩, []) ∧
    step ⟨false, (true, [])⟩
      ⟨[⟨"k".data, "v".data⟩], .AddValue ("k2".data) ("w".data), some 0, some 0,
        none⟩ .enter =
      (⟨[⟨"k".data, "v".data⟩] ++ [⟨"k2".data, "w".data⟩], .Normal, some 1,
        some 0, none⟩, []) ∧
    step ⟨false, (true, [])⟩
      ⟨[⟨"k".data, "v".data⟩], .ConfirmDelete 0, some 0, some 0, none⟩
      (.ch 'y') =
      (⟨([⟨"k".data, "v".data⟩] : List Param).eraseIdx 0, .Normal,
        (if ([⟨"k".data, "v".data⟩] : List Param).eraseIdx 0 = [] then none
         else some 0), some 0, none⟩, []) :=
  ⟨(claim7_save_failure_skips_notify_reload ⟨false, (true, [])⟩
      [⟨"k".data, "v".data⟩] (some 0) (some 0) none 0 ("k2".data) ("w".data)
      rfl).1 (by decide),
   (claim7_save_failure_skips_notify_reload ⟨false, (true, [])⟩
      [⟨"k".data, "v".data⟩] (some 0) (some 0) none 0 ("k2".data) ("w".data)
      rfl).2.1 (by decide),
   (claim7_save_failure_skips_notify_reload ⟨false, (true, [])⟩
      [⟨"k".data, "v".data⟩] (some 0) (some 0) none 0 ("k2".data) ("w".data)
      rfl).2.2 (by decide)⟩

/-- C9: from Normal mode with a three-entry list and selection at index 1,
pressing delete then `n` returns to Normal with the list unchanged and the
selection still 1; pressing delete then `y` removes the entry at index 1,
leaving the two remaining entries, and moves the selection to index 0. -/
theorem claim9_delete_confirmation :
    (step ⟨true, (true, [])⟩
      ((step ⟨true, (true, [])⟩
        ⟨[⟨"a".data, "1".data⟩, ⟨"b".data, "2".data⟩, ⟨"c".data, "3".data⟩],
         .Normal, some 1, some 0, none⟩ (.ch 'd')).1) (.ch 'n')).1 =
      ⟨[⟨"a".data, "1".data⟩, ⟨"b".data, "2".data⟩, ⟨"c".data, "3".data⟩],
       .Normal, some 1, some 0, none⟩ ∧
    (step ⟨true, (true, [])⟩
      ((step ⟨true, (true, [])⟩
        ⟨[⟨"a".data, "1".data⟩, ⟨"b".data, "2".data⟩, ⟨"c".data, "3".data⟩],
         .Normal, some 1, some 0, none⟩ (.ch 'd')).1) (.ch 'y')).1 =
      ⟨[⟨"a".data, "1".data⟩, ⟨"c".data, "3".data⟩],
       .Normal, some 0, some 0, some (true, [])⟩ :=
  ⟨by decide, by decide⟩

/-- C10: the selection invariant holds after any sequence of key events from
any initial state: the main-list selection is `none` exactly when the
parameter list is empty, and every selected index is strictly below the list
length, so indexing the list at the selection is always in bounds. -/
theorem claim10_selection_invariant (env0 : Env) (loaded : List Param)
    (evs : List (Env × KeyEv)) :
    SelInv (runSession env0 loaded evs) :=
  foldSteps_selInv evs (initState env0 loaded) (initState_selInv env0 loaded)

end MakoTui
